import Mathlib

/-!
Verification of the leadulater contact reconciliation/enrichment pipeline.

This file gives a shallow embedding, in Lean, of the pure core of the
pipeline: the JS string normalizers, the social-follower merge
(`socialFollowers` utility module), the field-merge/conflict engine of the
contact ingest route, the URL normalization and deduplication of the link
curator, the lenient model-JSON parser, and the control flow of the
deep-research orchestrators (streaming route and quick-capture background
processor), with external calls (model chat, research backend, blob store,
JSON decoding of opaque payloads) reified as oracle parameters.

JavaScript strings are modeled as Lean `String` (lists of characters);
the `\s` character class and `toLowerCase` are modeled on their ASCII
core, which is all the repository's data ever exercises.  Follower counts
after the JS `Number(...)` coercion are modeled as integers (`none` for a
non-finite coercion result); on integers `Math.round` is the identity, and
fractional floating-point counts are outside the model.
-/

namespace JsStr

/-- ASCII core of the JS regexp class `\s` (space, tab, LF, CR, VT, FF). -/
def wsChar (c : Char) : Bool :=
  c = ' ' || c = '\t' || c = '\n' || c = '\r' || c = '\x0b' || c = '\x0c'

/-- Drop trailing whitespace from a character list (structural version). -/
def trimRightList : List Char → List Char
  | [] => []
  | c :: rest =>
    match trimRightList rest with
    | [] => if wsChar c then [] else [c]
    | a :: r => c :: a :: r

theorem trimRightList_cons (c : Char) (rest : List Char) :
    trimRightList (c :: rest) =
      match trimRightList rest with
      | [] => if wsChar c then [] else [c]
      | a :: r => c :: a :: r := rfl

/-- `String.prototype.trim`: drop leading and trailing whitespace. -/
def trimList (l : List Char) : List Char :=
  trimRightList (l.dropWhile wsChar)

/-- JS `s.trim()`. -/
def jsTrim (s : String) : String :=
  ⟨trimList s.data⟩

/-- JS `s.toLowerCase()` (ASCII model). -/
def jsToLower (s : String) : String :=
  ⟨s.data.map Char.toLower⟩

/-- One pass of whitespace-run collapsing; the flag records whether the
previous character was whitespace. -/
def collapseAux : Bool → List Char → List Char
  | _, [] => []
  | prevWs, c :: rest =>
    if wsChar c then
      if prevWs then collapseAux true rest else ' ' :: collapseAux true rest
    else c :: collapseAux false rest

/-- JS whitespace-run collapsing, modeling `replace` of `\s+` with a single
space applied everywhere in the string. -/
def collapseWs (s : String) : String :=
  ⟨collapseAux false s.data⟩

/-- JS `replace` removing every character that is not a digit or `+`
(the phone normalizer's character filter). -/
def keepDigitsPlus (s : String) : String :=
  ⟨s.data.filter (fun c => c.isDigit || c = '+')⟩

theorem trimRightList_idem (l : List Char) :
    trimRightList (trimRightList l) = trimRightList l := by
  induction l with
  | nil => rfl
  | cons c rest ih =>
    rw [trimRightList_cons]
    cases h : trimRightList rest with
    | nil =>
      by_cases hc : wsChar c
      · simp [hc, trimRightList]
      · simp [hc, trimRightList_cons, trimRightList]
    | cons a t =>
      have ih' : trimRightList (a :: t) = a :: t := by rw [← h, ih, h]
      simp only [trimRightList_cons, ih']

theorem dropWhile_head_not (p : Char → Bool) (l : List Char) :
    l.dropWhile p = [] ∨
      ∃ c t, l.dropWhile p = c :: t ∧ p c = false := by
  induction l with
  | nil => exact Or.inl rfl
  | cons c t ih =>
    by_cases h : p c
    · simpa [List.dropWhile, h] using ih
    · exact Or.inr ⟨c, t, by simp [List.dropWhile, h], by simp [h]⟩

theorem trimList_idem (l : List Char) : trimList (trimList l) = trimList l := by
  unfold trimList
  rcases dropWhile_head_not (wsChar) l with h | ⟨c, t, h, hc⟩
  · simp [h, trimRightList]
  · rw [h, trimRightList_cons]
    cases h2 : trimRightList t with
    | nil =>
      by_cases hcw : wsChar c
      · simp [hcw, trimRightList]
      · simp [hcw, List.dropWhile, hc, trimRightList_cons, trimRightList]
    | cons a r =>
      have : (c :: a :: r).dropWhile wsChar = c :: a :: r := by
        simp [List.dropWhile, hc]
      rw [this, trimRightList_cons]
      have ih' : trimRightList (a :: r) = a :: r := by
        rw [← h2, trimRightList_idem, h2]
      simp only [ih']

theorem jsTrim_idem (s : String) : jsTrim (jsTrim s) = jsTrim s := by
  simp [jsTrim, trimList_idem]

theorem filter_dropWhile {p q : Char → Bool}
    (hpq : ∀ c, q c = true → p c = false) (l : List Char) :
    (l.dropWhile q).filter p = l.filter p := by
  induction l with
  | nil => rfl
  | cons c t ih =>
    by_cases h : q c
    · simp [List.dropWhile, h, List.filter, hpq c h, ih]
    · simp [List.dropWhile, h]

theorem filter_trimRightList {p : Char → Bool}
    (hp : ∀ c, wsChar c = true → p c = false) (l : List Char) :
    (trimRightList l).filter p = l.filter p := by
  induction l with
  | nil => rfl
  | cons c t ih =>
    rw [trimRightList_cons]
    cases h : trimRightList t with
    | nil =>
      have ht : List.filter p t = [] := by rw [← ih, h]; rfl
      by_cases hc : wsChar c
      · simp [hc, List.filter, hp c hc, ht]
      · cases hpc : p c <;> simp [hc, List.filter, hpc, ht]
    | cons a r =>
      have ht : List.filter p t = List.filter p (a :: r) := by rw [← ih, h]
      simp only [List.filter_cons, ht]

theorem filter_trimList {p : Char → Bool}
    (hp : ∀ c, wsChar c = true → p c = false) (l : List Char) :
    (trimList l).filter p = l.filter p := by
  unfold trimList
  rw [filter_trimRightList hp, filter_dropWhile hp]

theorem keepDigitsPlus_jsTrim (s : String) :
    keepDigitsPlus (jsTrim s) = keepDigitsPlus s := by
  have hp : ∀ c, wsChar c = true → (c.isDigit || c = '+') = false := by
    intro c hc
    simp only [wsChar, Bool.or_eq_true, decide_eq_true_eq] at hc
    rcases hc with ((((h | h) | h) | h) | h) | h <;> subst h <;> decide
  simp [keepDigitsPlus, jsTrim, filter_trimList hp]

/-- A JS string is truthy iff it is non-empty. -/
def truthy (s : String) : Bool := s ≠ ""

end JsStr

namespace JsStr

/-- Does `l` start with `pre`?  (model of JS string prefix test). -/
def startsWithList : List Char → List Char → Bool
  | _, [] => true
  | [], _ :: _ => false
  | h :: t, n :: m => h = n && startsWithList t m

/-- JS `hay.includes(needle)` on character lists. -/
def containsList : List Char → List Char → Bool
  | [], needle => needle.isEmpty
  | h :: t, needle => startsWithList (h :: t) needle || containsList t needle

/-- JS `s.startsWith(pre)`. -/
def jsStartsWith (s pre : String) : Bool := startsWithList s.data pre.data

/-- JS `s.includes(sub)`. -/
def jsIncludes (s sub : String) : Bool := containsList s.data sub.data

end JsStr

/-! ## Social-Audience Merger (utility module `socialFollowers`) -/

namespace SocialFollowers

open JsStr

/-- The `SocialPlatform` union type. -/
inductive SocialPlatform where
  | x
  | twitter
  | instagram
  | linkedin
  | youtube
  | tiktok
  | facebook
  | threads
  | github
  | reddit
  | pinterest
  | twitch
  | other
deriving DecidableEq, Repr

/-- The `SocialFollowerMetric` union type. -/
inductive SocialFollowerMetric where
  | followers
  | subscribers
deriving DecidableEq, Repr

/-- A raw follower entry as it reaches `normalizeFollower`: string fields
hold the result of `asString` before its trim; `count` holds the JS number
after the `Number(...)` coercion, `none` when that coercion produced
`NaN`/`Infinity` (so `Number.isFinite` fails). -/
structure RawFollower where
  platform : String
  count : Option ℤ
  label : String
  url : String
  handle : String
  metric : String
deriving DecidableEq, Repr

/-- A normalized follower entry; `Option` fields are present only when the
source string was non-empty (the JS object spread drops falsy values). -/
structure SocialFollower where
  platform : SocialPlatform
  count : ℤ
  label : Option String := none
  url : Option String := none
  handle : Option String := none
  metric : Option SocialFollowerMetric := none
deriving DecidableEq, Repr

/-- `asString`: stringify then trim (inputs are modeled as strings). -/
def asString (s : String) : String := jsTrim s

/-- `normalizePlatform`. -/
def normalizePlatform (raw : String) : SocialPlatform :=
  let v := jsToLower (asString raw)
  if v = "" then .other
  else if v = "x" then .x
  else if v = "twitter" then .twitter
  else if v = "instagram" then .instagram
  else if v = "linkedin" then .linkedin
  else if v = "youtube" then .youtube
  else if v = "tiktok" then .tiktok
  else if v = "facebook" then .facebook
  else if v = "threads" then .threads
  else if v = "github" then .github
  else if v = "reddit" then .reddit
  else if v = "pinterest" then .pinterest
  else if v = "twitch" then .twitch
  else .other

/-- `canonicalPlatform`: store `"twitter"` as `"x"` to avoid duplicate
entries from mixed naming. -/
def canonicalPlatform (p : SocialPlatform) : SocialPlatform :=
  if p = .twitter then .x else p

/-- `normalizeMetric`: any metric string containing `"sub"` becomes
`subscribers`, any other non-empty string becomes `followers`. -/
def normalizeMetric (raw : String) : Option SocialFollowerMetric :=
  let v := jsToLower (asString raw)
  if v = "" then none
  else if jsIncludes v "sub" then some .subscribers
  else some .followers

/-- `asString(x) || null`: keep a trimmed string only when non-empty. -/
def emptyToNone (s : String) : Option String :=
  if s = "" then none else some s

/-- `normalizeFollower`: platform fold, count validation and rounding,
falsy-field dropping, metric normalization. -/
def normalizeFollower (r : RawFollower) : Option SocialFollower :=
  let platform := canonicalPlatform (normalizePlatform r.platform)
  match r.count with
  | none => none
  | some c =>
    if c < 0 then none
    else
      some
        { platform := platform
          count := c
          label := emptyToNone (asString r.label)
          url := emptyToNone (asString r.url)
          handle := emptyToNone (asString r.handle)
          metric := normalizeMetric r.metric }

/-- `chooseBetter`: prefer higher count; on a tie prefer the entry with a
URL/handle; still tied, adopt the other entry's label when missing. -/
def chooseBetter (a b : SocialFollower) : SocialFollower :=
  if a.count < b.count then b
  else if b.count < a.count then a
  else
    let aHas := a.url.isSome || a.handle.isSome
    let bHas := b.url.isSome || b.handle.isSome
    if bHas && !aHas then b
    else if aHas && !bHas then a
    else if b.label.isSome && a.label.isNone then { a with label := b.label }
    else a

/-- One `byPlatform.set` step of the grouping loop: a JS `Map` keyed by
platform, represented as the insertion-ordered list of its values. -/
def insertFollower (acc : List SocialFollower) (item : SocialFollower) :
    List SocialFollower :=
  match acc.find? (fun f => decide (f.platform = item.platform)) with
  | some cur =>
      acc.map (fun f => if f.platform = item.platform then chooseBetter cur item else f)
  | none => acc ++ [item]

/-- Stable insertion step for a descending sort by count: an element is
placed before the first strictly smaller entry, after equal ones coming
from its left. -/
def insertDesc (a : SocialFollower) : List SocialFollower → List SocialFollower
  | [] => [a]
  | h :: t => if h.count ≤ a.count then a :: h :: t else h :: insertDesc a t

/-- The final `.sort((a, b) => b.count - a.count)`: a stable sort by
count, descending (JS `Array.prototype.sort` is stable, so any stable
sort under the same comparator produces the same list). -/
def sortByCountDesc (l : List SocialFollower) : List SocialFollower :=
  l.foldr insertDesc []

/-- `mergeSocialFollowers`.  `none` models the JS `undefined` ("no
signal"); a `none` input models a non-array value. -/
def mergeSocialFollowers (existing incoming : Option (List RawFollower)) :
    Option (List SocialFollower) :=
  let ex := (existing.getD []).filterMap normalizeFollower
  let inc := (incoming.getD []).filterMap normalizeFollower
  if ex = [] ∧ inc = [] then none
  else some (sortByCountDesc ((ex ++ inc).foldl insertFollower []))

theorem canonicalPlatform_ne_twitter (p : SocialPlatform) :
    canonicalPlatform p ≠ .twitter := by
  cases p <;> simp [canonicalPlatform]

theorem normalizeFollower_ne_twitter {r : RawFollower} {f : SocialFollower}
    (h : normalizeFollower r = some f) : f.platform ≠ .twitter := by
  unfold normalizeFollower at h
  cases hc : r.count with
  | none => rw [hc] at h; exact absurd h (by simp)
  | some c =>
    rw [hc] at h
    by_cases hneg : c < 0
    · simp [hneg] at h
    · simp only [hneg, if_false] at h
      have := congrArg SocialFollower.platform (Option.some.inj h)
      simp at this
      rw [← this]
      exact canonicalPlatform_ne_twitter _

theorem chooseBetter_platform (a b : SocialFollower) :
    (chooseBetter a b).platform = a.platform ∨
      (chooseBetter a b).platform = b.platform := by
  unfold chooseBetter
  split_ifs <;> (try simp) <;> split_ifs <;> simp

theorem chooseBetter_count (a b : SocialFollower) :
    (chooseBetter a b).count = max a.count b.count := by
  unfold chooseBetter
  split_ifs <;> (try simp) <;> (try omega) <;> split_ifs <;> simp <;> omega

end SocialFollowers

namespace SocialFollowers

/-- The platform keys of a grouped list, in order. -/
def platforms (l : List SocialFollower) : List SocialPlatform :=
  l.map (fun f => f.platform)

theorem find?_platform_eq {acc : List SocialFollower} {item cur : SocialFollower}
    (h : acc.find? (fun f => decide (f.platform = item.platform)) = some cur) :
    cur.platform = item.platform := by
  have := List.find?_some h
  simpa using this

theorem insertFollower_platforms (acc : List SocialFollower) (item : SocialFollower) :
    platforms (insertFollower acc item) = platforms acc ∨
      (platforms (insertFollower acc item) = platforms acc ++ [item.platform] ∧
        item.platform ∉ platforms acc) := by
  unfold insertFollower
  cases hf : acc.find? (fun f => decide (f.platform = item.platform)) with
  | some cur =>
    left
    unfold platforms
    rw [List.map_map]
    apply List.map_congr_left
    intro f hmem
    by_cases hq : f.platform = item.platform
    · rcases chooseBetter_platform cur item with h | h <;>
        simp [Function.comp, hq, h, find?_platform_eq hf]
    · simp [Function.comp, hq]
  | none =>
    right
    refine ⟨by simp [platforms], ?_⟩
    rw [List.find?_eq_none] at hf
    simp only [platforms, List.mem_map]
    rintro ⟨f, hmem, heq⟩
    have hne := hf f hmem
    simp only [decide_eq_true_eq] at hne
    exact hne heq

theorem insertFollower_nodup {acc : List SocialFollower} {item : SocialFollower}
    (h : (platforms acc).Nodup) :
    (platforms (insertFollower acc item)).Nodup := by
  rcases insertFollower_platforms acc item with h1 | ⟨h1, h2⟩ <;> rw [h1]
  · exact h
  · simp [List.nodup_append, h, h2]

theorem insertFollower_plat_prop {acc : List SocialFollower} {item : SocialFollower}
    (P : SocialPlatform → Prop)
    (hacc : ∀ f ∈ acc, P f.platform) (hit : P item.platform) :
    ∀ f ∈ insertFollower acc item, P f.platform := by
  unfold insertFollower
  cases hf : acc.find? (fun f => decide (f.platform = item.platform)) with
  | some cur =>
    intro f hmem
    rcases List.mem_map.mp hmem with ⟨g, hg, rfl⟩
    by_cases hq : g.platform = item.platform
    · rcases chooseBetter_platform cur item with h | h <;>
        simp [hq, h, find?_platform_eq hf] <;>
        first
          | exact hacc cur (List.mem_of_find?_eq_some hf)
          | exact hit
    · simpa [hq] using hacc g hg
  | none =>
    intro f hmem
    rcases List.mem_append.mp hmem with h | h
    · exact hacc f h
    · rw [List.mem_singleton.mp h]; exact hit

/-- `g` is dominated in `l`: some entry of `l` on the same platform has at
least `g`'s count. -/
def dominatedBy (g : SocialFollower) (l : List SocialFollower) : Prop :=
  ∃ f ∈ l, f.platform = g.platform ∧ g.count ≤ f.count

theorem insertFollower_dominates_old {acc : List SocialFollower}
    {item g : SocialFollower} (hnd : (platforms acc).Nodup)
    (h : dominatedBy g acc) : dominatedBy g (insertFollower acc item) := by
  rcases h with ⟨f, hmem, hplat, hcount⟩
  unfold insertFollower
  cases hf : acc.find? (fun f => decide (f.platform = item.platform)) with
  | some cur =>
    by_cases hq : f.platform = item.platform
    · have hcur : cur ∈ acc := List.mem_of_find?_eq_some hf
      have hcp : cur.platform = item.platform := find?_platform_eq hf
      have hndm : (acc.map (fun f => f.platform)).Nodup := hnd
      have hfc : f = cur :=
        List.inj_on_of_nodup_map hndm hmem hcur (hq.trans hcp.symm)
      refine ⟨chooseBetter cur item, List.mem_map.mpr ⟨cur, hcur, by simp [hcp]⟩, ?_, ?_⟩
      · rcases chooseBetter_platform cur item with h | h <;>
          rw [h] <;> rw [← hfc] at * <;> simp [hq, ← hplat, hcp]
      · rw [chooseBetter_count, ← hfc]
        exact le_trans hcount (le_max_left _ _)
    · exact ⟨f, List.mem_map.mpr ⟨f, hmem, by simp [hq]⟩, hplat, hcount⟩
  | none => exact ⟨f, List.mem_append_left _ hmem, hplat, hcount⟩

theorem insertFollower_dominates_item (acc : List SocialFollower)
    (item : SocialFollower) : dominatedBy item (insertFollower acc item) := by
  unfold insertFollower
  cases hf : acc.find? (fun f => decide (f.platform = item.platform)) with
  | some cur =>
    refine ⟨chooseBetter cur item,
      List.mem_map.mpr ⟨cur, List.mem_of_find?_eq_some hf,
        by simp [find?_platform_eq hf]⟩, ?_, ?_⟩
    · rcases chooseBetter_platform cur item with h | h <;>
        simp [h, find?_platform_eq hf]
    · rw [chooseBetter_count]; exact le_max_right _ _
  | none => exact ⟨item, List.mem_append_right _ (List.mem_singleton_self _), rfl, le_refl _⟩

theorem foldl_insert_nodup (items : List SocialFollower)
    (acc : List SocialFollower) (h : (platforms acc).Nodup) :
    (platforms (items.foldl insertFollower acc)).Nodup := by
  induction items generalizing acc with
  | nil => exact h
  | cons i t ih => exact ih _ (insertFollower_nodup h)

theorem foldl_insert_plat_prop (P : SocialPlatform → Prop)
    (items : List SocialFollower) (acc : List SocialFollower)
    (hacc : ∀ f ∈ acc, P f.platform) (hitems : ∀ i ∈ items, P i.platform) :
    ∀ f ∈ items.foldl insertFollower acc, P f.platform := by
  induction items generalizing acc with
  | nil => exact hacc
  | cons i t ih =>
    exact ih _
      (insertFollower_plat_prop P hacc (hitems i (List.mem_cons_self _ _)))
      (fun j hj => hitems j (List.mem_cons_of_mem _ hj))

theorem foldl_insert_dominates (items : List SocialFollower)
    (acc : List SocialFollower) (hnd : (platforms acc).Nodup) :
    (∀ g, dominatedBy g acc → dominatedBy g (items.foldl insertFollower acc)) ∧
      ∀ g ∈ items, dominatedBy g (items.foldl insertFollower acc) := by
  induction items generalizing acc with
  | nil => exact ⟨fun g h => h, by simp⟩
  | cons i t ih =>
    have hnd' : (platforms (insertFollower acc i)).Nodup := insertFollower_nodup hnd
    refine ⟨fun g h => (ih _ hnd').1 g (insertFollower_dominates_old hnd h), ?_⟩
    intro g hg
    rcases List.mem_cons.mp hg with rfl | hg
    · exact (ih _ hnd').1 g (insertFollower_dominates_item acc g)
    · exact (ih _ hnd').2 g hg

end SocialFollowers

namespace SocialFollowers

theorem insertDesc_perm (a : SocialFollower) (l : List SocialFollower) :
    (insertDesc a l).Perm (a :: l) := by
  induction l with
  | nil => exact List.Perm.refl _
  | cons h t ih =>
    by_cases hc : h.count ≤ a.count
    · simp [insertDesc, hc]
    · rw [insertDesc, if_neg hc]
      exact (ih.cons h).trans (List.Perm.swap a h t)

theorem sortByCountDesc_perm (l : List SocialFollower) :
    (sortByCountDesc l).Perm l := by
  induction l with
  | nil => exact List.Perm.refl _
  | cons h t ih =>
    exact (insertDesc_perm h (t.foldr insertDesc [])).trans (ih.cons h)

theorem mem_insertDesc {a b : SocialFollower} {l : List SocialFollower} :
    b ∈ insertDesc a l ↔ b = a ∨ b ∈ l := by
  rw [(insertDesc_perm a l).mem_iff, List.mem_cons]

theorem insertDesc_sorted {a : SocialFollower} {l : List SocialFollower}
    (h : l.Pairwise (fun x y => y.count ≤ x.count)) :
    (insertDesc a l).Pairwise (fun x y => y.count ≤ x.count) := by
  induction l with
  | nil => simp [insertDesc]
  | cons hd t ih =>
    rcases List.pairwise_cons.mp h with ⟨hhd, ht⟩
    by_cases hc : hd.count ≤ a.count
    · rw [insertDesc, if_pos hc]
      refine List.pairwise_cons.mpr ⟨?_, h⟩
      intro y hy
      rcases List.mem_cons.mp hy with rfl | hy
      · exact hc
      · exact le_trans (hhd y hy) hc
    · rw [insertDesc, if_neg hc]
      refine List.pairwise_cons.mpr ⟨?_, ih ht⟩
      intro y hy
      rcases mem_insertDesc.mp hy with rfl | hy
      · omega
      · exact hhd y hy

theorem sortByCountDesc_sorted (l : List SocialFollower) :
    (sortByCountDesc l).Pairwise (fun x y => y.count ≤ x.count) := by
  induction l with
  | nil => simp [sortByCountDesc]
  | cons h t ih => exact insertDesc_sorted ih

theorem mergeSocialFollowers_some_eq {existing incoming : Option (List RawFollower)}
    {l : List SocialFollower}
    (h : mergeSocialFollowers existing incoming = some l) :
    l = sortByCountDesc
      (((existing.getD []).filterMap normalizeFollower ++
        (incoming.getD []).filterMap normalizeFollower).foldl insertFollower []) := by
  unfold mergeSocialFollowers at h
  simp only at h
  split at h
  · exact absurd h (by simp)
  · exact (Option.some.inj h).symm

theorem normalized_mem_ne_twitter {raws : List RawFollower} {f : SocialFollower}
    (h : f ∈ raws.filterMap normalizeFollower) : f.platform ≠ .twitter := by
  rcases List.mem_filterMap.mp h with ⟨r, _, hr⟩
  exact normalizeFollower_ne_twitter hr

end SocialFollowers

open SocialFollowers in
/-- Claim C2: for all inputs to the social-follower merge, every returned
list contains at most one entry per canonical platform (the platform keys
are duplicate-free), and no returned entry carries the platform
`twitter` — the alias is always folded into `x` before grouping. -/
theorem mergeSocialFollowers_canonical_unique
    (existing incoming : Option (List RawFollower)) (l : List SocialFollower)
    (h : mergeSocialFollowers existing incoming = some l) :
    (platforms l).Nodup ∧ ∀ f ∈ l, f.platform ≠ SocialPlatform.twitter := by
  rw [mergeSocialFollowers_some_eq h]
  set items :=
    (existing.getD []).filterMap normalizeFollower ++
      (incoming.getD []).filterMap normalizeFollower with hitems
  have hperm : (sortByCountDesc (items.foldl insertFollower [])).Perm
      (items.foldl insertFollower []) := sortByCountDesc_perm _
  constructor
  · have hnd : ((items.foldl insertFollower []).map (fun f => f.platform)).Nodup :=
      foldl_insert_nodup items [] (by simp [platforms])
    exact ((hperm.map (fun f => f.platform)).nodup_iff).mpr hnd
  · intro f hf
    refine foldl_insert_plat_prop (fun p => p ≠ SocialPlatform.twitter) items []
      (by simp) ?_ f (hperm.mem_iff.mp hf)
    intro i hi
    rcases List.mem_append.mp hi with hmem | hmem <;>
      exact normalized_mem_ne_twitter hmem

open SocialFollowers in
/-- Claim C2 witness at a concrete input. -/
theorem mergeSocialFollowers_canonical_unique_witness :
    (platforms [{ platform := SocialPlatform.x, count := 7 }]).Nodup ∧
      ∀ f ∈ ([{ platform := SocialPlatform.x, count := 7 }] :
          List SocialFollower),
        f.platform ≠ SocialPlatform.twitter :=
  mergeSocialFollowers_canonical_unique
    (some [{ platform := "twitter", count := some 7, label := "", url := "",
             handle := "", metric := "" }])
    none [{ platform := SocialPlatform.x, count := 7 }] (by decide)

open SocialFollowers in
/-- Claim C3: the merge returns `none` ("no signal") exactly when both
inputs are empty after normalization; the concrete collision example keeps
the higher count; every returned list is sorted by count descending; and
every normalized input entry is dominated by a returned entry on its
platform (collisions keep the higher count). -/
theorem mergeSocialFollowers_signal_and_ranking :
    (∀ existing incoming : Option (List RawFollower),
        mergeSocialFollowers existing incoming = none ↔
          (existing.getD []).filterMap normalizeFollower = [] ∧
            (incoming.getD []).filterMap normalizeFollower = []) ∧
    (mergeSocialFollowers
        (some [{ platform := "instagram", count := some 100, label := "",
                 url := "", handle := "", metric := "" }])
        (some [{ platform := "instagram", count := some 50, label := "",
                 url := "", handle := "", metric := "" }]) =
      some [{ platform := SocialPlatform.instagram, count := 100 }]) ∧
    (∀ existing incoming l, mergeSocialFollowers existing incoming = some l →
        l.Pairwise (fun a b => b.count ≤ a.count)) ∧
    (∀ existing incoming l, mergeSocialFollowers existing incoming = some l →
        ∀ g, (g ∈ (existing.getD []).filterMap normalizeFollower ∨
               g ∈ (incoming.getD []).filterMap normalizeFollower) →
          ∃ f ∈ l, f.platform = g.platform ∧ g.count ≤ f.count) := by
  refine ⟨?_, by decide, ?_, ?_⟩
  · intro existing incoming
    unfold mergeSocialFollowers
    constructor
    · intro h
      by_cases hc : ((existing.getD []).filterMap normalizeFollower = [] ∧
          (incoming.getD []).filterMap normalizeFollower = [])
      · exact hc
      · rw [if_neg hc] at h; exact absurd h (by simp)
    · intro h; rw [if_pos h]
  · intro existing incoming l h
    rw [mergeSocialFollowers_some_eq h]
    exact sortByCountDesc_sorted _
  · intro existing incoming l h g hg
    have heq := mergeSocialFollowers_some_eq h
    set items :=
      (existing.getD []).filterMap normalizeFollower ++
        (incoming.getD []).filterMap normalizeFollower with hitems
    have hdom : dominatedBy g (items.foldl insertFollower []) := by
      refine (foldl_insert_dominates items [] (by simp [platforms])).2 g ?_
      rcases hg with hmem | hmem
      · exact List.mem_append_left _ hmem
      · exact List.mem_append_right _ hmem
    rcases hdom with ⟨f, hf, hplat, hcount⟩
    have hperm : (sortByCountDesc (items.foldl insertFollower [])).Perm
        (items.foldl insertFollower []) := sortByCountDesc_perm _
    exact ⟨f, by rw [heq]; exact hperm.mem_iff.mpr hf, hplat, hcount⟩

open SocialFollowers in
/-- Claim C3 witness at a concrete input. -/
theorem mergeSocialFollowers_signal_and_ranking_witness :
    (mergeSocialFollowers (some []) none = none ↔
      (((some []).getD []).filterMap normalizeFollower = [] ∧
        ((none : Option (List RawFollower)).getD []).filterMap normalizeFollower = [])) ∧
    [({ platform := SocialPlatform.instagram, count := 100 } :
        SocialFollower)].Pairwise (fun a b => b.count ≤ a.count) :=
  ⟨mergeSocialFollowers_signal_and_ranking.1 (some []) none,
    mergeSocialFollowers_signal_and_ranking.2.2.1
      (some [{ platform := "instagram", count := some 100, label := "",
               url := "", handle := "", metric := "" }])
      (some [{ platform := "instagram", count := some 50, label := "",
               url := "", handle := "", metric := "" }])
      [{ platform := SocialFollowers.SocialPlatform.instagram, count := 100 }]
      (by decide)⟩

/-! ## Field Merge/Conflict Engine (contact ingest route) -/

namespace IngestRoute

open JsStr

/-- `${v ?? ""}`.trim().toLowerCase() -/
def normalizeEmail (v : Option String) : String := jsToLower (jsTrim (v.getD ""))

/-- `${v ?? ""}` with every character other than digits and `+` removed. -/
def normalizePhone (v : Option String) : String := keepDigitsPlus (v.getD "")

/-- `${v ?? ""}`.trim().toLowerCase() with whitespace runs collapsed. -/
def normalizeName (v : Option String) : String :=
  collapseWs (jsToLower (jsTrim (v.getD "")))

/-- `${v ?? ""}`.trim().toLowerCase() -/
def normalizeUrl (v : Option String) : String := jsToLower (jsTrim (v.getD ""))

/-- JS `a || b` on strings: the first operand unless it is empty (falsy). -/
def jsOr (a b : String) : String := if a = "" then b else a

/-- The contact fields read and written by the ingest merge; used both for
the stored contact snapshot and for the incoming extraction
(`extraction.contact`), whose relevant shapes coincide.  `none` models a
missing/null field. -/
structure ContactFields where
  fullName : Option String := none
  firstName : Option String := none
  lastName : Option String := none
  jobTitle : Option String := none
  companyName : Option String := none
  email : Option String := none
  phone : Option String := none
  linkedInUrl : Option String := none
  website : Option String := none
  location : Option String := none
  notes : Option String := none
  tags : Option (List String) := none
  socialFollowers : Option (List SocialFollowers.RawFollower) := none
deriving DecidableEq, Repr

/-- A detected identity conflict record. -/
structure Conflict where
  field : String
  existing : String
  incoming : String
deriving DecidableEq, Repr

/-- `existing.fullName || `(firstName lastName)`.trim()`. -/
def nameSource (c : ContactFields) : String :=
  jsOr (c.fullName.getD "")
    (jsTrim ((c.firstName.getD "") ++ " " ++ (c.lastName.getD "")))

/-- The normalized comparison name of a contact. -/
def nameOf (c : ContactFields) : String := normalizeName (some (nameSource c))

/-- The email conflict condition: both sides non-empty, normalized values
differ. -/
def emailConflictB (existing incoming : ContactFields) : Bool :=
  normalizeEmail existing.email ≠ "" && normalizeEmail incoming.email ≠ "" &&
    normalizeEmail existing.email ≠ normalizeEmail incoming.email

def phoneConflictB (existing incoming : ContactFields) : Bool :=
  normalizePhone existing.phone ≠ "" && normalizePhone incoming.phone ≠ "" &&
    normalizePhone existing.phone ≠ normalizePhone incoming.phone

def nameConflictB (existing incoming : ContactFields) : Bool :=
  nameOf existing ≠ "" && nameOf incoming ≠ "" &&
    nameOf existing ≠ nameOf incoming

def linkedInConflictB (existing incoming : ContactFields) : Bool :=
  normalizeUrl existing.linkedInUrl ≠ "" && normalizeUrl incoming.linkedInUrl ≠ "" &&
    normalizeUrl existing.linkedInUrl ≠ normalizeUrl incoming.linkedInUrl

/-- The conflict list, in push order: email, phone, name, linkedInUrl.
Email/phone/linkedInUrl conflicts record the raw values; the name conflict
records the normalized names, as in the source. -/
def conflictsOf (existing incoming : ContactFields) : List Conflict :=
  (if emailConflictB existing incoming then
    [{ field := "email", existing := existing.email.getD "",
       incoming := incoming.email.getD "" }] else []) ++
  (if phoneConflictB existing incoming then
    [{ field := "phone", existing := existing.phone.getD "",
       incoming := incoming.phone.getD "" }] else []) ++
  (if nameConflictB existing incoming then
    [{ field := "name", existing := nameOf existing,
       incoming := nameOf incoming }] else []) ++
  (if linkedInConflictB existing incoming then
    [{ field := "linkedInUrl", existing := existing.linkedInUrl.getD "",
       incoming := incoming.linkedInUrl.getD "" }] else [])

/-- `applyField`: fill a blank, no-op on normalized equality, overwrite
only under `force`.  Returns the patch value for the field, `none` when
the field is left untouched. -/
def applyField (force : Bool) (existingVal incomingVal : Option String)
    (normalize : Option String → String) : Option String :=
  match incomingVal with
  | none => none
  | some raw =>
    let v := jsTrim raw
    if v = "" then none
    else
      let ex := normalize existingVal
      let inc := normalize (some v)
      if ex = "" then some v
      else if ex = inc then none
      else if force then some v else none

/-- The patch assembled by the merge; a `none` field is absent from the
JS patch object. -/
structure Patch where
  fullName : Option String := none
  firstName : Option String := none
  lastName : Option String := none
  jobTitle : Option String := none
  companyName : Option String := none
  email : Option String := none
  phone : Option String := none
  linkedInUrl : Option String := none
  website : Option String := none
  location : Option String := none
  notes : Option String := none
  tags : Option (List String) := none
  socialFollowers : Option (List SocialFollowers.SocialFollower) := none
deriving DecidableEq, Repr

/-- `Array.from(new Set(l))`: first-occurrence deduplication. -/
def jsSetDedupAux (seen : List String) : List String → List String
  | [] => []
  | t :: rest =>
    if seen.contains t then jsSetDedupAux seen rest
    else t :: jsSetDedupAux (t :: seen) rest

def jsSetDedup (l : List String) : List String := jsSetDedupAux [] l

/-- The field name contributed to `appliedFields` when a patch entry was
set. -/
def appliedMark (name : String) {α : Type} (o : Option α) : List String :=
  if o.isSome then [name] else []

/-- The patch-assembly phase of the ingest merge (runs after the conflict
gate has passed). -/
def ingestApply (existing incoming : ContactFields) (force : Bool) :
    Patch × List String :=
  let pFullName := applyField force existing.fullName incoming.fullName normalizeName
  let pFirstName := applyField force existing.firstName incoming.firstName normalizeName
  let pLastName := applyField force existing.lastName incoming.lastName normalizeName
  let pJobTitle := applyField force existing.jobTitle incoming.jobTitle normalizeName
  let pCompanyName := applyField force existing.companyName incoming.companyName normalizeName
  let pEmail := applyField force existing.email incoming.email normalizeEmail
  let pPhone := applyField force existing.phone incoming.phone normalizePhone
  let pLinkedInUrl := applyField force existing.linkedInUrl incoming.linkedInUrl normalizeUrl
  let pWebsite := applyField force existing.website incoming.website normalizeUrl
  let pLocation := applyField force existing.location incoming.location normalizeName
  let incomingNotes := jsTrim (incoming.notes.getD "")
  let pNotes : Option String :=
    if incomingNotes = "" then none
    else
      let existingNotes := jsTrim (existing.notes.getD "")
      some (if existingNotes = "" then incomingNotes
        else existingNotes ++ "\n\n[Added info]\n" ++ incomingNotes)
  let inTags := ((incoming.tags.getD []).map jsTrim).filter (fun t => t ≠ "")
  let pTags : Option (List String) :=
    if inTags = [] then none
    else
      some (jsSetDedup
        (((existing.tags.getD []).map jsTrim).filter (fun t => t ≠ "") ++ inTags))
  let pFollowers :=
    SocialFollowers.mergeSocialFollowers existing.socialFollowers incoming.socialFollowers
  ({ fullName := pFullName, firstName := pFirstName, lastName := pLastName,
     jobTitle := pJobTitle, companyName := pCompanyName, email := pEmail,
     phone := pPhone, linkedInUrl := pLinkedInUrl, website := pWebsite,
     location := pLocation, notes := pNotes, tags := pTags,
     socialFollowers := pFollowers },
   appliedMark "fullName" pFullName ++ appliedMark "firstName" pFirstName ++
     appliedMark "lastName" pLastName ++ appliedMark "jobTitle" pJobTitle ++
     appliedMark "companyName" pCompanyName ++ appliedMark "email" pEmail ++
     appliedMark "phone" pPhone ++ appliedMark "linkedInUrl" pLinkedInUrl ++
     appliedMark "website" pWebsite ++ appliedMark "location" pLocation ++
     appliedMark "notes" pNotes ++ appliedMark "tags" pTags ++
     appliedMark "socialFollowers" pFollowers)

/-- The ingest merge outcome: a 409 conflict response (no write), or a
success response carrying the applied-field names and the committed patch
(`none` when the patch was empty and nothing was written). -/
inductive IngestResult where
  | conflict409 (conflicts : List Conflict)
  | ok (appliedFields : List String) (write : Option Patch)
deriving DecidableEq, Repr

/-- The whole merge: conflict gate, then patch assembly and conditional
write. -/
def ingestMerge (existing incoming : ContactFields) (force : Bool) :
    IngestResult :=
  let conflicts := conflictsOf existing incoming
  if conflicts ≠ [] ∧ force = false then .conflict409 conflicts
  else
    let r := ingestApply existing incoming force
    if r.1 = {} then .ok [] none
    else .ok r.2 (some r.1)

/-- The document write performed by the merge, if any. -/
def writeOf : IngestResult → Option Patch
  | .conflict409 _ => none
  | .ok _ w => w

end IngestRoute

namespace JsStr

theorem jsToLower_eq_empty_iff (s : String) : jsToLower s = "" ↔ s = "" := by
  cases s with
  | mk data =>
    cases data <;> simp [jsToLower, String.ext_iff]

theorem collapseWs_eq_empty_iff (s : String) : collapseWs s = "" ↔ s = "" := by
  cases s with
  | mk data =>
    cases data with
    | nil => simp [collapseWs, collapseAux]
    | cons c t =>
      simp only [collapseWs, String.ext_iff]
      constructor
      · intro h
        by_cases hc : wsChar c <;> simp [collapseAux, hc] at h
      · intro h; cases h

theorem keepDigitsPlus_empty : keepDigitsPlus "" = "" := rfl

end JsStr

namespace IngestRoute

open JsStr

theorem normalizeEmail_trim (s : String) :
    normalizeEmail (some (jsTrim s)) = normalizeEmail (some s) := by
  simp [normalizeEmail, jsTrim_idem]

theorem normalizeName_trim (s : String) :
    normalizeName (some (jsTrim s)) = normalizeName (some s) := by
  simp [normalizeName, jsTrim_idem]

theorem normalizeUrl_trim (s : String) :
    normalizeUrl (some (jsTrim s)) = normalizeUrl (some s) := by
  simp [normalizeUrl, jsTrim_idem]

theorem normalizePhone_trim (s : String) :
    normalizePhone (some (jsTrim s)) = normalizePhone (some s) := by
  simp [normalizePhone, keepDigitsPlus_jsTrim]

theorem normalizeEmail_ne_empty_trim {s : String}
    (h : normalizeEmail (some s) ≠ "") : jsTrim s ≠ "" := by
  intro hc
  rw [← normalizeEmail_trim s, hc] at h
  exact h rfl

theorem normalizeName_ne_empty_trim {s : String}
    (h : normalizeName (some s) ≠ "") : jsTrim s ≠ "" := by
  intro hc
  rw [← normalizeName_trim s, hc] at h
  exact h rfl

theorem normalizeUrl_ne_empty_trim {s : String}
    (h : normalizeUrl (some s) ≠ "") : jsTrim s ≠ "" := by
  intro hc
  rw [← normalizeUrl_trim s, hc] at h
  exact h rfl

theorem normalizePhone_ne_empty_trim {s : String}
    (h : normalizePhone (some s) ≠ "") : jsTrim s ≠ "" := by
  intro hc
  rw [← normalizePhone_trim s, hc] at h
  exact h rfl

theorem ingestApply_email (existing incoming : ContactFields) (force : Bool) :
    (ingestApply existing incoming force).1.email =
      applyField force existing.email incoming.email normalizeEmail := rfl

theorem ingestApply_phone (existing incoming : ContactFields) (force : Bool) :
    (ingestApply existing incoming force).1.phone =
      applyField force existing.phone incoming.phone normalizePhone := rfl

theorem ingestApply_linkedInUrl (existing incoming : ContactFields) (force : Bool) :
    (ingestApply existing incoming force).1.linkedInUrl =
      applyField force existing.linkedInUrl incoming.linkedInUrl normalizeUrl := rfl

theorem ingestApply_fullName (existing incoming : ContactFields) (force : Bool) :
    (ingestApply existing incoming force).1.fullName =
      applyField force existing.fullName incoming.fullName normalizeName := rfl

theorem ingestApply_notes (existing incoming : ContactFields) (force : Bool) :
    (ingestApply existing incoming force).1.notes =
      (if jsTrim (incoming.notes.getD "") = "" then none
       else some (if jsTrim (existing.notes.getD "") = ""
         then jsTrim (incoming.notes.getD "")
         else jsTrim (existing.notes.getD "") ++ "\n\n[Added info]\n" ++
           jsTrim (incoming.notes.getD ""))) := rfl

/-- `applyField` overwrites under `force` whenever both sides are
non-empty with differing normalized values (and fills when the existing
normalization is empty). -/
theorem applyField_force_overwrite {s : String}
    (existingVal : Option String) (normalize : Option String → String)
    (hinv : normalize (some (jsTrim s)) = normalize (some s))
    (hv : jsTrim s ≠ "")
    (hne : normalize existingVal ≠ normalize (some s)) :
    applyField true existingVal (some s) normalize = some (jsTrim s) := by
  unfold applyField
  simp only [hv, if_neg, hinv]
  by_cases hex : normalize existingVal = ""
  · simp [hex, hv]
  · simp [hex, hne, hv]

end IngestRoute

open IngestRoute JsStr in
/-- Claim C1: if any of the four identity fields (email, phone, name,
linkedInUrl) conflicts — both sides non-empty with differing normalized
values — and `force` is false, the ingest merge returns the full conflict
list (the 409 response) and performs no write; with `force = true` the
merge never returns the conflict response, and each conflicting stored
field is overwritten with the (trimmed) incoming value — for the derived
`name` conflict, the stored `fullName` is overwritten whenever the
incoming extraction carries a (truthy) `fullName`. -/
theorem ingest_conflict_gate_and_force_overwrite
    (existing incoming : ContactFields) :
    (conflictsOf existing incoming ≠ [] →
      ingestMerge existing incoming false =
        IngestResult.conflict409 (conflictsOf existing incoming) ∧
      writeOf (ingestMerge existing incoming false) = none) ∧
    (emailConflictB existing incoming = true →
      (ingestApply existing incoming true).1.email =
        some (jsTrim (incoming.email.getD ""))) ∧
    (phoneConflictB existing incoming = true →
      (ingestApply existing incoming true).1.phone =
        some (jsTrim (incoming.phone.getD ""))) ∧
    (linkedInConflictB existing incoming = true →
      (ingestApply existing incoming true).1.linkedInUrl =
        some (jsTrim (incoming.linkedInUrl.getD ""))) ∧
    (nameConflictB existing incoming = true → incoming.fullName.getD "" ≠ "" →
      (ingestApply existing incoming true).1.fullName =
        some (jsTrim (incoming.fullName.getD ""))) ∧
    (∀ cs, ingestMerge existing incoming true ≠ IngestResult.conflict409 cs) := by
  refine ⟨?_, ?_, ?_, ?_, ?_, ?_⟩
  · intro h
    have hm : ingestMerge existing incoming false =
        IngestResult.conflict409 (conflictsOf existing incoming) := by
      unfold ingestMerge
      simp [h]
    exact ⟨hm, by rw [hm]; rfl⟩
  · intro h
    simp only [emailConflictB, Bool.and_eq_true, decide_eq_true_eq,
      bne_iff_ne, ne_eq, decide_not, Bool.not_eq_true', decide_eq_false_iff_not] at h
    obtain ⟨⟨hex, hinc⟩, hne⟩ := h
    cases hi : incoming.email with
    | none => rw [hi] at hinc; exact absurd rfl hinc
    | some s =>
      rw [hi] at hinc hne
      rw [ingestApply_email, hi]
      exact applyField_force_overwrite existing.email normalizeEmail
        (normalizeEmail_trim s) (normalizeEmail_ne_empty_trim hinc) hne
  · intro h
    simp only [phoneConflictB, Bool.and_eq_true, decide_eq_true_eq,
      bne_iff_ne, ne_eq, decide_not, Bool.not_eq_true', decide_eq_false_iff_not] at h
    obtain ⟨⟨hex, hinc⟩, hne⟩ := h
    cases hi : incoming.phone with
    | none => rw [hi] at hinc; exact absurd rfl hinc
    | some s =>
      rw [hi] at hinc hne
      rw [ingestApply_phone, hi]
      exact applyField_force_overwrite existing.phone normalizePhone
        (normalizePhone_trim s) (normalizePhone_ne_empty_trim hinc) hne
  · intro h
    simp only [linkedInConflictB, Bool.and_eq_true, decide_eq_true_eq,
      bne_iff_ne, ne_eq, decide_not, Bool.not_eq_true', decide_eq_false_iff_not] at h
    obtain ⟨⟨hex, hinc⟩, hne⟩ := h
    cases hi : incoming.linkedInUrl with
    | none => rw [hi] at hinc; exact absurd rfl hinc
    | some s =>
      rw [hi] at hinc hne
      rw [ingestApply_linkedInUrl, hi]
      exact applyField_force_overwrite existing.linkedInUrl normalizeUrl
        (normalizeUrl_trim s) (normalizeUrl_ne_empty_trim hinc) hne
  · intro h htruthy
    simp only [nameConflictB, Bool.and_eq_true, decide_eq_true_eq,
      bne_iff_ne, ne_eq, decide_not, Bool.not_eq_true', decide_eq_false_iff_not] at h
    obtain ⟨⟨hex, hinc⟩, hne⟩ := h
    cases hi : incoming.fullName with
    | none => rw [hi] at htruthy; exact absurd rfl htruthy
    | some s =>
      rw [hi] at htruthy
      simp only [Option.getD_some] at htruthy
      have hnsrc : nameSource incoming = s := by
        unfold nameSource
        rw [hi]
        simp [jsOr, htruthy]
      have hinc' : normalizeName (some s) ≠ "" := by
        rw [← hnsrc]; exact hinc
      rw [ingestApply_fullName, hi]
      refine applyField_force_overwrite existing.fullName normalizeName
        (normalizeName_trim s) (normalizeName_ne_empty_trim hinc') ?_
      by_cases hexf : normalizeName existing.fullName = ""
      · rw [hexf]
        exact fun hcontra => hinc' hcontra.symm
      · have hexful : existing.fullName.getD "" ≠ "" := by
          intro hc
          apply hexf
          cases he : existing.fullName with
          | none => rfl
          | some t => rw [he] at hc; simp only [Option.getD_some] at hc; rw [hc]; rfl
        have hesrc : nameSource existing = existing.fullName.getD "" := by
          unfold nameSource
          simp [jsOr, hexful]
        intro hcontra
        apply hne
        unfold nameOf
        rw [hesrc, hnsrc, ← hcontra]
        cases he : existing.fullName with
        | none => rw [he] at hexful; exact absurd rfl hexful
        | some t => simp [he]
  · intro cs
    unfold ingestMerge
    simp only [Bool.true_eq_false, and_false, if_false]
    split <;> simp

open IngestRoute in
/-- Claim C1 witness at the spec's own example: existing email `a@x.com`,
incoming email `b@x.com`. -/
theorem ingest_conflict_gate_and_force_overwrite_witness :
    (ingestMerge { email := some "a@x.com" } { email := some "b@x.com" } false =
      IngestResult.conflict409
        (conflictsOf { email := some "a@x.com" } { email := some "b@x.com" }) ∧
      writeOf (ingestMerge { email := some "a@x.com" } { email := some "b@x.com" }
        false) = none) ∧
    (ingestApply { email := some "a@x.com" } { email := some "b@x.com" }
        true).1.email = some (JsStr.jsTrim ((some "b@x.com").getD "")) :=
  ⟨(ingest_conflict_gate_and_force_overwrite
      { email := some "a@x.com" } { email := some "b@x.com" }).1 (by decide),
    (ingest_conflict_gate_and_force_overwrite
      { email := some "a@x.com" } { email := some "b@x.com" }).2.1 (by decide)⟩

namespace IngestRoute

open JsStr

theorem appended_notes_ne {a b : String} (ha : a ≠ "") :
    a ++ "\n\n[Added info]\n" ++ b ≠ b := by
  intro h
  have hlen := congrArg String.length h
  rw [String.length_append, String.length_append] at hlen
  have hpos : 0 < a.length := by
    cases a with
    | mk data =>
      cases data with
      | nil => exact absurd rfl ha
      | cons c t => simp [String.length]
  have : ("\n\n[Added info]\n" : String).length = 15 := by decide
  omega

/-- The result returned by the merge alongside the write. -/
def appliedOf : IngestResult → List String
  | .conflict409 _ => []
  | .ok a _ => a

end IngestRoute

open IngestRoute JsStr in
/-- Claim C7: whenever the merge reaches its apply phase (no unforced
conflict gate) with non-empty existing notes and non-empty incoming
notes, the committed patch's notes is the existing text, a visible
separator, then the incoming text — never the incoming text alone. -/
theorem ingest_notes_appended (existing incoming : ContactFields) (force : Bool)
    (hgate : ¬(conflictsOf existing incoming ≠ [] ∧ force = false))
    (hex : jsTrim (existing.notes.getD "") ≠ "")
    (hinc : jsTrim (incoming.notes.getD "") ≠ "") :
    ∃ patch, writeOf (ingestMerge existing incoming force) = some patch ∧
      patch.notes = some (jsTrim (existing.notes.getD "") ++ "\n\n[Added info]\n" ++
        jsTrim (incoming.notes.getD "")) ∧
      patch.notes ≠ some (jsTrim (incoming.notes.getD "")) := by
  have hnotes : (ingestApply existing incoming force).1.notes =
      some (jsTrim (existing.notes.getD "") ++ "\n\n[Added info]\n" ++
        jsTrim (incoming.notes.getD "")) := by
    rw [ingestApply_notes]
    simp [hex, hinc]
  refine ⟨(ingestApply existing incoming force).1, ?_, hnotes, ?_⟩
  · unfold ingestMerge
    rw [if_neg hgate]
    have hne : (ingestApply existing incoming force).1 ≠ ({} : Patch) := by
      intro hcontra
      rw [hcontra] at hnotes
      exact absurd hnotes (by simp)
    simp only [hne, if_neg]
    rfl
  · rw [hnotes]
    intro hcontra
    exact appended_notes_ne hex (Option.some.inj hcontra)

open IngestRoute JsStr in
/-- Claim C7 witness at the spec's example: existing notes `A`, incoming
notes `B`. -/
theorem ingest_notes_appended_witness :
    ∃ patch, writeOf (ingestMerge { notes := some "A" } { notes := some "B" }
        false) = some patch ∧
      patch.notes = some (jsTrim (((some "A").getD "")) ++ "\n\n[Added info]\n" ++
        jsTrim (((some "B").getD ""))) ∧
      patch.notes ≠ some (jsTrim ((some "B").getD "")) :=
  ingest_notes_appended { notes := some "A" } { notes := some "B" } false
    (by decide) (by decide) (by decide)

open IngestRoute in
/-- Claim C8 counterexample: re-running the merge with an incoming payload
identical to the existing contact (notes `A` on both sides, no conflicts)
does not produce zero applied fields — the identical notes are appended
again under the separator. -/
theorem ingest_idempotence_counterexample :
    conflictsOf { notes := some "A" } { notes := some "A" } = [] ∧
    appliedOf (ingestMerge { notes := some "A" } { notes := some "A" } false) =
      ["notes"] ∧
    writeOf (ingestMerge { notes := some "A" } { notes := some "A" } false) =
      some { notes := some "A\n\n[Added info]\nA" } := by decide

namespace IngestRoute

open JsStr

/-- A stored scalar value on which the re-ingest of the identical value is
a no-op: absent, trim-empty, or with a non-empty normalization. -/
def cleanScalarB (normalize : Option String → String) (v : Option String) : Bool :=
  match v with
  | none => true
  | some raw => jsTrim raw = "" || normalize (some raw) ≠ ""

theorem applyField_self (force : Bool) (v : Option String)
    (normalize : Option String → String)
    (hinv : ∀ s, normalize (some (jsTrim s)) = normalize (some s))
    (hclean : cleanScalarB normalize v = true) :
    applyField force v v normalize = none := by
  cases v with
  | none => rfl
  | some raw =>
    simp only [cleanScalarB, Bool.or_eq_true, decide_eq_true_eq, bne_iff_ne,
      ne_eq, decide_not, Bool.not_eq_true', decide_eq_false_iff_not] at hclean
    unfold applyField
    rcases hclean with h | h
    · simp [h]
    · by_cases hv : jsTrim raw = ""
      · simp [hv]
      · simp [hv, h, hinv raw]

theorem conflictsOf_self (c : ContactFields) : conflictsOf c c = [] := by
  unfold conflictsOf
  simp [emailConflictB, phoneConflictB, nameConflictB, linkedInConflictB]

end IngestRoute

open IngestRoute JsStr SocialFollowers in
/-- Claim C8 amended: re-running the merge with an incoming payload
identical to the existing contact produces no conflicts; it also produces
zero applied fields and no write, but only when the contact's notes are
trim-empty, its tags normalize to the empty list, its social followers
normalize to the empty list, and each stored scalar is either trim-empty
or has a non-empty normalization — identical non-empty notes, tags or
followers are otherwise re-applied (notes are appended again). -/
theorem ingest_idempotent_on_clean (c : ContactFields)
    (hFullName : cleanScalarB normalizeName c.fullName = true)
    (hFirstName : cleanScalarB normalizeName c.firstName = true)
    (hLastName : cleanScalarB normalizeName c.lastName = true)
    (hJobTitle : cleanScalarB normalizeName c.jobTitle = true)
    (hCompanyName : cleanScalarB normalizeName c.companyName = true)
    (hEmail : cleanScalarB normalizeEmail c.email = true)
    (hPhone : cleanScalarB normalizePhone c.phone = true)
    (hLinkedIn : cleanScalarB normalizeUrl c.linkedInUrl = true)
    (hWebsite : cleanScalarB normalizeUrl c.website = true)
    (hLocation : cleanScalarB normalizeName c.location = true)
    (hNotes : jsTrim (c.notes.getD "") = "")
    (hTags : ((c.tags.getD []).map jsTrim).filter (fun t => t ≠ "") = [])
    (hSf : (c.socialFollowers.getD []).filterMap normalizeFollower = []) :
    conflictsOf c c = [] ∧
      ingestMerge c c false = IngestResult.ok [] none := by
  have hnameInv : ∀ s, normalizeName (some (jsTrim s)) = normalizeName (some s) :=
    normalizeName_trim
  have hsf' : mergeSocialFollowers c.socialFollowers c.socialFollowers = none := by
    unfold mergeSocialFollowers
    simp [hSf]
  have happly : ingestApply c c false = ({}, []) := by
    unfold ingestApply
    rw [applyField_self false c.fullName normalizeName hnameInv hFullName,
      applyField_self false c.firstName normalizeName hnameInv hFirstName,
      applyField_self false c.lastName normalizeName hnameInv hLastName,
      applyField_self false c.jobTitle normalizeName hnameInv hJobTitle,
      applyField_self false c.companyName normalizeName hnameInv hCompanyName,
      applyField_self false c.email normalizeEmail normalizeEmail_trim hEmail,
      applyField_self false c.phone normalizePhone normalizePhone_trim hPhone,
      applyField_self false c.linkedInUrl normalizeUrl normalizeUrl_trim hLinkedIn,
      applyField_self false c.website normalizeUrl normalizeUrl_trim hWebsite,
      applyField_self false c.location normalizeName hnameInv hLocation,
      hsf', hNotes, hTags]
    simp [appliedMark]
  refine ⟨conflictsOf_self c, ?_⟩
  unfold ingestMerge
  rw [conflictsOf_self c]
  simp [happly]

open IngestRoute JsStr SocialFollowers in
/-- Claim C8 amended witness: a contact with a single stored (trimmed,
normalizable) email re-ingested unchanged yields no conflicts, zero
applied fields and no write. -/
theorem ingest_idempotent_on_clean_witness :
    conflictsOf { email := some "a@x.com" } { email := some "a@x.com" } = [] ∧
      ingestMerge { email := some "a@x.com" } { email := some "a@x.com" } false =
        IngestResult.ok [] none :=
  ingest_idempotent_on_clean { email := some "a@x.com" }
    (by decide) (by decide) (by decide) (by decide) (by decide) (by decide)
    (by decide) (by decide) (by decide) (by decide) (by decide) (by decide)
    (by decide)

/-! ## URL normalization (`researchImages.ts`) and Link Curator
(`curateExtraLinks.ts`) -/

namespace ResearchImages

open JsStr

/-- `\w` plus `.` and `-` (the regexp class `[\w.-]`, ASCII). -/
def urlWordChar (c : Char) : Bool :=
  c.isAlpha || c.isDigit || c = '_' || c = '.' || c = '-'

/-- Full match of `[\w.-]+\.[a-z]{2,}` (with the `i` flag): split at the
last dot; before it a non-empty run of `[\w.-]`, after it two or more
ASCII letters. -/
def domainBodyMatch (l : List Char) : Bool :=
  let rev := l.reverse
  let trev := rev.takeWhile (fun c => c ≠ '.')
  match rev.dropWhile (fun c => c ≠ '.') with
  | [] => false
  | _ :: prevRev =>
    !prevRev.isEmpty && prevRev.all urlWordChar &&
      decide (2 ≤ trev.length) && trev.all (fun c => c.isAlpha)

/-- Full match of the bare-domain regexp
`[\w.-]+\.[a-z]{2,}([/].*)?` anchored at both ends (`i` flag); the `.` in
the optional path group matches anything but a line terminator. -/
def domainLike (s : String) : Bool :=
  let l := s.data
  let body := l.takeWhile (fun c => c ≠ '/')
  let rest := l.dropWhile (fun c => c ≠ '/')
  domainBodyMatch body &&
    (rest.isEmpty || (rest.tail.all (fun c => c ≠ '\n' && c ≠ '\r')))

/-- `normalizeUrl`: trim; accept `http(s)://` as is; prefix `https://` to
a bare domain; reject anything else (`none` models the JS `null`). -/
def normalizeUrl (input : String) : Option String :=
  let raw := jsTrim input
  if raw = "" then none
  else if jsStartsWith raw "http://" || jsStartsWith raw "https://" then some raw
  else if domainLike raw then some ("https://" ++ raw)
  else none

end ResearchImages

namespace CurateLinks

open JsStr

/-- A candidate link entering the curator's pool. -/
structure Candidate where
  url : String
  title : Option String := none
  source : Option String := none
deriving DecidableEq, Repr

/-- An `ExtraLink` as stored on the contact. -/
structure ExtraLink where
  label : String
  url : String
deriving DecidableEq, Repr

/-- A raw link object from the ranking response (fields after JS
stringification). -/
structure RawLink where
  label : String
  url : String
deriving DecidableEq, Repr

/-- `uniqByUrl`, with the running `seen` set made explicit: drop
candidates whose URL fails normalization, keep the first candidate per
exact normalized URL, rewriting its `url` to the normalized form. -/
def uniqByUrlAux (seen : List String) : List Candidate → List Candidate
  | [] => []
  | it :: rest =>
    match ResearchImages.normalizeUrl it.url with
    | none => uniqByUrlAux seen rest
    | some url =>
      if seen.contains url then uniqByUrlAux seen rest
      else { it with url := url } :: uniqByUrlAux (url :: seen) rest

def uniqByUrl (items : List Candidate) : List Candidate := uniqByUrlAux [] items

/-- `Math.max(3, Math.min(args.maxLinks ?? 12, 20))`. -/
def clampMaxLinks (maxLinks : Option ℕ) : ℕ :=
  max 3 (min (maxLinks.getD 12) 20)

/-- The candidate pool sent to the ranking service:
`uniqByUrl(candidates).slice(0, 80)`. -/
def candidatePool (candidates : List Candidate) : List Candidate :=
  (uniqByUrl candidates).take 80

theorem uniqByUrlAux_spec (items : List Candidate) : ∀ seen : List String,
    ((uniqByUrlAux seen items).map (fun c => c.url)).Nodup ∧
      ∀ c ∈ uniqByUrlAux seen items, ¬seen.contains c.url = true ∧
        ∃ i ∈ items, ResearchImages.normalizeUrl i.url = some c.url := by
  induction items with
  | nil => intro seen; simp [uniqByUrlAux]
  | cons it rest ih =>
    intro seen
    unfold uniqByUrlAux
    cases hn : ResearchImages.normalizeUrl it.url with
    | none =>
      refine ⟨(ih seen).1, fun c hc => ?_⟩
      obtain ⟨h1, i, hi, h2⟩ := (ih seen).2 c hc
      exact ⟨h1, i, List.mem_cons_of_mem _ hi, h2⟩
    | some url =>
      dsimp only
      by_cases hseen : seen.contains url
      · rw [if_pos hseen]
        refine ⟨(ih seen).1, fun c hc => ?_⟩
        obtain ⟨h1, i, hi, h2⟩ := (ih seen).2 c hc
        exact ⟨h1, i, List.mem_cons_of_mem _ hi, h2⟩
      · rw [if_neg hseen]
        constructor
        · rw [List.map_cons, List.nodup_cons]
          refine ⟨?_, (ih (url :: seen)).1⟩
          intro hmem
          rcases List.mem_map.mp hmem with ⟨c, hc, hcu⟩
          have := ((ih (url :: seen)).2 c hc).1
          simp only [List.contains_cons] at this
          exact this (by simp [hcu])
        · intro c hc
          rcases List.mem_cons.mp hc with rfl | hc
          · exact ⟨hseen, it, List.mem_cons_self _ _, hn⟩
          · obtain ⟨h1, i, hi, h2⟩ := (ih (url :: seen)).2 c hc
            simp only [List.contains_cons, Bool.or_eq_true] at h1
            exact ⟨fun hcon => h1 (Or.inr hcon), i, List.mem_cons_of_mem _ hi, h2⟩

end CurateLinks

open CurateLinks in
/-- Claim C9 counterexample: candidate URLs differing only by tracking
parameters, or only by letter case, are NOT treated as duplicates — all
four candidates survive `uniqByUrl` unchanged. -/
theorem curate_dedupe_counterexample :
    uniqByUrl
      [{ url := "https://example.com/page?utm_source=news" },
       { url := "https://example.com/page" },
       { url := "https://EXAMPLE.com/About" },
       { url := "https://example.com/about" }] =
      [{ url := "https://example.com/page?utm_source=news" },
       { url := "https://example.com/page" },
       { url := "https://EXAMPLE.com/About" },
       { url := "https://example.com/about" }] ∧
    (uniqByUrl
      [{ url := "https://example.com/page?utm_source=news" },
       { url := "https://example.com/page" },
       { url := "https://EXAMPLE.com/About" },
       { url := "https://example.com/about" }]).length = 4 := by decide

/-! ## Lenient model-JSON parsing (`extractionSchema.ts`) -/

namespace ModelJson

open JsStr

/-- A thrown JS value: an `Error` carrying its `message`, or any other
thrown value. -/
inductive JsErr where
  | jsError (message : String)
  | jsOther
deriving DecidableEq, Repr

/-- `err instanceof Error ? err.message : default`. -/
def JsErr.messageOr (d : String) : JsErr → String
  | .jsError m => m
  | .jsOther => d

/-- An opaque decoded JSON value; decoding and schema validation are
oracles on top of it. -/
structure JsValue where
  tag : ℕ
deriving DecidableEq, Repr

/-- The index of the last occurrence of `c` in `l`. -/
def lastIdxOf (c : Char) (l : List Char) : Option ℕ :=
  match l.reverse.findIdx? (fun x => x = c) with
  | none => none
  | some i => some (l.length - 1 - i)

/-- `safeParseModelJson`: trim, slice from the first `\x7b` to the last
`\x7d`, then JSON-decode the slice (the decoder `jsonParse` is an
oracle).  Throws "Model did not return JSON" when no such slice exists. -/
def safeParseModelJson (jsonParse : String → Except JsErr JsValue)
    (value : String) : Except JsErr JsValue :=
  let cs := (jsTrim value).data
  match cs.findIdx? (fun c => c = '\x7b'), lastIdxOf '\x7d' cs with
  | some firstBrace, some lastBrace =>
    if lastBrace ≤ firstBrace then .error (.jsError "Model did not return JSON")
    else jsonParse ⟨(cs.drop firstBrace).take (lastBrace + 1 - firstBrace)⟩
  | some _, none => .error (.jsError "Model did not return JSON")
  | none, _ => .error (.jsError "Model did not return JSON")

end ModelJson

/-! ## Deep-Research Orchestrators: shared document model -/

namespace Orchestrator

open JsStr ModelJson

/-- One search-result/source record. -/
structure SourceItem where
  title : Option String := none
  url : Option String := none
  date : Option String := none
deriving DecidableEq, Repr

/-- The contact document fields read or written by the research
orchestrators; image blobs are opaque tokens. -/
structure ContactDoc where
  fullName : Option String := none
  firstName : Option String := none
  lastName : Option String := none
  jobTitle : Option String := none
  companyName : Option String := none
  email : Option String := none
  phone : Option String := none
  linkedInUrl : Option String := none
  website : Option String := none
  location : Option String := none
  notes : Option String := none
  tags : Option (List String) := none
  socialFollowers : Option (List SocialFollowers.RawFollower) := none
  extraLinks : Option (List CurateLinks.ExtraLink) := none
  deepResearchStatus : Option String := none
  deepResearchError : Option String := none
  deepResearchRaw : Option String := none
  deepResearchSummary : Option String := none
  deepResearchPrompt : Option String := none
  researchFields : Option (List (String × Option String)) := none
  researchImages : Option (List ℕ) := none
  deepResearchSources : Option (List SourceItem) := none
deriving DecidableEq, Repr

/-- One NDJSON progress event (`done` always carries `ok: true`). -/
inductive Event where
  | reasoning (text : String)
  | content (text : String)
  | sources (sources : List SourceItem)
  | status (stage : String)
  | done
  | error (message : String)
deriving DecidableEq, Repr

/-- The enrichment `contactPatch` after zod validation: an outer `none`
models an absent (`undefined`) key, `some none` an explicit `null`. -/
structure ContactPatch where
  fullName : Option (Option String) := none
  firstName : Option (Option String) := none
  lastName : Option (Option String) := none
  jobTitle : Option (Option String) := none
  companyName : Option (Option String) := none
  email : Option (Option String) := none
  phone : Option (Option String) := none
  linkedInUrl : Option (Option String) := none
  website : Option (Option String) := none
  location : Option (Option String) := none
  notes : Option (Option String) := none
  tags : Option (Option (List String)) := none
deriving DecidableEq, Repr

/-- The validated enrichment payload (`contactEnrichmentSchema`). -/
structure Enrichment where
  contactPatch : ContactPatch := {}
  summary : Option String := none
  researchFields : List (String × Option String) := []
  socialFollowers : List SocialFollowers.RawFollower := []
  extraLinks : List CurateLinks.RawLink := []
deriving DecidableEq, Repr

/-- Apply one `...(patch.f !== undefined ? patch.f : keep)` spread. -/
def applyPatchField (cur : Option String) (p : Option (Option String)) :
    Option String :=
  match p with
  | none => cur
  | some v => v

/-- `Array.isArray(patch.tags) ? dedup(trimmed) : undefined`. -/
def patchTags (p : Option (Option (List String))) : Option (List String) :=
  match p with
  | some (some ts) =>
    some (IngestRoute.jsSetDedup ((ts.map jsTrim).filter (fun t => t ≠ "")))
  | _ => none

/-- The trimmed summary, or `null` when empty/absent
(`summaryOrNull`). -/
def summaryOrNull (summary : Option String) : Option String :=
  let s := jsTrim (summary.getD "")
  if s = "" then none else some s

/-- `patch.notes !== undefined ? patch.notes : summaryOrNull` — the value
always written to `notes` (possibly `null`). -/
def notesValue (patchNotes : Option (Option String)) (summary : Option String) :
    Option String :=
  match patchNotes with
  | some nv => nv
  | none => summaryOrNull summary

/-- Serialize a normalized follower entry back to its stored JSON form
(an empty string models an absent key). -/
def serializePlatform : SocialFollowers.SocialPlatform → String
  | .x => "x"
  | .twitter => "twitter"
  | .instagram => "instagram"
  | .linkedin => "linkedin"
  | .youtube => "youtube"
  | .tiktok => "tiktok"
  | .facebook => "facebook"
  | .threads => "threads"
  | .github => "github"
  | .reddit => "reddit"
  | .pinterest => "pinterest"
  | .twitch => "twitch"
  | .other => "other"

def serializeFollower (f : SocialFollowers.SocialFollower) :
    SocialFollowers.RawFollower :=
  { platform := serializePlatform f.platform
    count := some f.count
    label := f.label.getD ""
    url := f.url.getD ""
    handle := f.handle.getD ""
    metric :=
      match f.metric with
      | some .followers => "followers"
      | some .subscribers => "subscribers"
      | none => "" }

end Orchestrator

namespace CurateLinks

open JsStr ModelJson

/-- The filter step of the curator's `toExtraLinks`, applied in order to
the mapped `(trimmed label, normalized url)` pairs.  The JS predicate is
`l.label.length > 0 && l.url.length > 0`, where `url` is the
`string | null` result of `normalizeUrl`: an entry with a non-empty label
and a `null` URL makes the predicate throw a `TypeError`
(`null.length`), aborting the whole curation at the first such entry. -/
def curateFilter : List (String × Option String) → Except JsErr (List ExtraLink)
  | [] => .ok []
  | (label, url) :: rest =>
    if label = "" then curateFilter rest
    else
      match url with
      | none =>
        .error (.jsError "Cannot read properties of null (reading 'length')")
      | some u =>
        if u = "" then curateFilter rest
        else
          match curateFilter rest with
          | .error e => .error e
          | .ok tail => .ok ({ label := label, url := u } :: tail)

/-- The curator's `toExtraLinks`: trim each label and normalize each URL,
then run the throwing JS filter above. -/
def toExtraLinks (links : List RawLink) : Except JsErr (List ExtraLink) :=
  curateFilter (links.map (fun l => (jsTrim l.label, ResearchImages.normalizeUrl l.url)))

/-- The post-ranking selection
`toExtraLinks(parsed?.links).slice(0, maxLinks)`: an over-long ranking
result whose entries survive `toExtraLinks` is truncated; a `TypeError`
from `toExtraLinks` propagates. -/
def curateSelect (maxLinks : Option ℕ) (links : List RawLink) :
    Except JsErr (List ExtraLink) :=
  match toExtraLinks links with
  | .error e => .error e
  | .ok l => .ok (l.take (clampMaxLinks maxLinks))

theorem curateFilter_ok_iff (ps : List (String × Option String)) :
    (∃ l, curateFilter ps = .ok l) ↔ ∀ p ∈ ps, p.1 = "" ∨ p.2 ≠ none := by
  induction ps with
  | nil => simp [curateFilter]
  | cons p rest ih =>
    obtain ⟨label, url⟩ := p
    by_cases hl : label = ""
    · rw [show curateFilter ((label, url) :: rest) = curateFilter rest from by
        simp [curateFilter, hl]]
      rw [ih]
      simp [List.forall_mem_cons, hl]
    · cases url with
      | none =>
        rw [show curateFilter ((label, none) :: rest) =
            .error (.jsError "Cannot read properties of null (reading 'length')") from by
          simp [curateFilter, hl]]
        simp [List.forall_mem_cons, hl]
      | some u =>
        by_cases hu : u = ""
        · rw [show curateFilter ((label, some u) :: rest) = curateFilter rest from by
            simp [curateFilter, hl, hu]]
          rw [ih]
          simp [List.forall_mem_cons, hl]
        · cases hres : curateFilter rest with
          | error e =>
            rw [show curateFilter ((label, some u) :: rest) = .error e from by
              simp [curateFilter, hl, hu, hres]]
            simp only [List.forall_mem_cons]
            constructor
            · rintro ⟨l, hcontra⟩
              exact absurd hcontra (by simp)
            · intro h
              obtain ⟨l, hl2⟩ := ih.mpr h.2
              rw [hres] at hl2
              exact absurd hl2 (by simp)
          | ok tail =>
            rw [show curateFilter ((label, some u) :: rest) =
                .ok ({ label := label, url := u } :: tail) from by
              simp [curateFilter, hl, hu, hres]]
            simp only [List.forall_mem_cons]
            constructor
            · intro _
              exact ⟨Or.inr (by simp), ih.mp ⟨tail, hres⟩⟩
            · intro _
              exact ⟨{ label := label, url := u } :: tail, rfl⟩

end CurateLinks

namespace Orchestrator

open JsStr

/-- The inline extra-links computation shared by `processCaptureAsync`
and the deep-research routes:
`enrichment.extraLinks.map(trim/normalize).filter(Boolean(l.url) && l.label.length > 0)`.
Unlike the curator's `toExtraLinks`, this filter tests the URL with
`Boolean` first, so a `null` URL is dropped rather than throwing. -/
def enrichmentExtraLinks (links : List CurateLinks.RawLink) :
    List CurateLinks.ExtraLink :=
  links.filterMap (fun l =>
    let label := jsTrim l.label
    match ResearchImages.normalizeUrl l.url with
    | none => none
    | some url => if label ≠ "" then some { label := label, url := url } else none)

end Orchestrator

open CurateLinks in
/-- Claim C9 amended: before the ranking request the candidate list is
deduplicated by EXACT normalized URL (normalization only trims, accepts
`http(s)://`, and prefixes bare domains — it does not strip tracking
parameters or fold case); a ranking result longer than the clamped
configured maximum is truncated to a prefix of that length whenever its
entries pass `toExtraLinks`, and `toExtraLinks` succeeds exactly when
every entry has an empty (trimmed) label or a normalizable URL — an
entry with a non-empty label and an un-normalizable URL makes the
curation throw, rejecting the ranking result instead of truncating it. -/
theorem curate_dedupe_exact_and_truncate :
    (∀ candidates : List Candidate,
      ((uniqByUrl candidates).map (fun c => c.url)).Nodup ∧
        ∀ c ∈ uniqByUrl candidates,
          ∃ i ∈ candidates, ResearchImages.normalizeUrl i.url = some c.url) ∧
    (∀ (maxLinks : Option ℕ) (links : List RawLink) (l : List ExtraLink),
      toExtraLinks links = .ok l →
      curateSelect maxLinks links = .ok (l.take (clampMaxLinks maxLinks)) ∧
        (l.take (clampMaxLinks maxLinks)).length ≤ clampMaxLinks maxLinks ∧
        (l.take (clampMaxLinks maxLinks)).IsPrefix l) ∧
    (∀ links : List RawLink,
      (∃ l, toExtraLinks links = .ok l) ↔
        ∀ r ∈ links, JsStr.jsTrim r.label = "" ∨
          ResearchImages.normalizeUrl r.url ≠ none) := by
  refine ⟨?_, ?_, ?_⟩
  · intro candidates
    refine ⟨(uniqByUrlAux_spec candidates []).1, fun c hc => ?_⟩
    exact ((uniqByUrlAux_spec candidates []).2 c hc).2
  · intro maxLinks links l h
    refine ⟨?_, ?_, List.take_prefix _ _⟩
    · unfold curateSelect
      rw [h]
    · rw [List.length_take]
      exact min_le_left _ _
  · intro links
    unfold toExtraLinks
    rw [curateFilter_ok_iff]
    constructor
    · intro h r hr
      have := h _ (List.mem_map_of_mem _ hr)
      simpa using this
    · intro h p hp
      rcases List.mem_map.mp hp with ⟨r, hr, rfl⟩
      simpa using h r hr

open CurateLinks in
/-- Claim C9 amended witness at concrete inputs: duplicate candidates are
deduplicated, a four-link ranking result is truncated to the clamped
maximum of three, and the success characterization holds on a list whose
second entry would make the JS filter throw. -/
theorem curate_dedupe_exact_and_truncate_witness :
    (((uniqByUrl [{ url := "https://a.com" }, { url := "https://a.com" }]).map
        (fun c => c.url)).Nodup ∧
      ∀ c ∈ uniqByUrl [{ url := "https://a.com" }, { url := "https://a.com" }],
        ∃ i ∈ [({ url := "https://a.com" } : Candidate),
               { url := "https://a.com" }],
          ResearchImages.normalizeUrl i.url = some c.url) ∧
    (curateSelect (some 3)
        [{ label := "L1", url := "https://a.com" },
         { label := "L2", url := "https://b.com" },
         { label := "L3", url := "https://c.com" },
         { label := "L4", url := "https://d.com" }] =
      .ok ([({ label := "L1", url := "https://a.com" } : ExtraLink),
            { label := "L2", url := "https://b.com" },
            { label := "L3", url := "https://c.com" },
            { label := "L4", url := "https://d.com" }].take
        (clampMaxLinks (some 3)))) ∧
    ((∃ l, toExtraLinks
        [{ label := "Site", url := "https://a.com" },
         { label := "Broken", url := "not a url!" }] = .ok l) ↔
      ∀ r ∈ [({ label := "Site", url := "https://a.com" } : RawLink),
             { label := "Broken", url := "not a url!" }],
        JsStr.jsTrim r.label = "" ∨
          ResearchImages.normalizeUrl r.url ≠ none) :=
  ⟨curate_dedupe_exact_and_truncate.1 _,
    (curate_dedupe_exact_and_truncate.2.1 (some 3)
      [{ label := "L1", url := "https://a.com" },
       { label := "L2", url := "https://b.com" },
       { label := "L3", url := "https://c.com" },
       { label := "L4", url := "https://d.com" }]
      [{ label := "L1", url := "https://a.com" },
       { label := "L2", url := "https://b.com" },
       { label := "L3", url := "https://c.com" },
       { label := "L4", url := "https://d.com" }] rfl).1,
    curate_dedupe_exact_and_truncate.2.2
      [{ label := "Site", url := "https://a.com" },
       { label := "Broken", url := "not a url!" }]⟩


/-! ## Deep-Research streaming orchestrator
(`deep-research/stream/route.ts`), modeled after its guards have passed. -/

namespace StreamRoute

open JsStr ModelJson Orchestrator

/-- One chunk from the streaming research backend, discriminated by its
`object` kind; unknown kinds are ignored. -/
inductive PChunk where
  | reasoning (steps : List String)
  | reasoningDone (images : Option (List ℕ)) (searchResults : Option (List SourceItem))
  | completionChunk (delta : Option String)
  | completionDone (finalContent : Option String) (images : Option (List ℕ))
      (searchResults : Option (List SourceItem))
  | other
deriving DecidableEq, Repr

/-- Accumulated state of the research loop. -/
structure ResearchAcc where
  fullContent : String := ""
  images : List ℕ := []
  searchResults : List SourceItem := []
  events : List Event := []
deriving DecidableEq, Repr

/-- The body of the `for await` loop over research chunks. -/
def processChunk (acc : ResearchAcc) (ch : PChunk) : ResearchAcc :=
  match ch with
  | .reasoning steps =>
    { acc with events :=
        acc.events ++ (steps.filter (fun s => jsTrim s ≠ "")).map Event.reasoning }
  | .reasoningDone images searchResults =>
    let acc1 := { acc with events := acc.events ++ [Event.status "generating"] }
    let acc2 := match images with
      | some im => { acc1 with images := im }
      | none => acc1
    (match searchResults with
      | some sr =>
        { acc2 with
          searchResults := sr
          events := acc2.events ++ [Event.sources sr] }
      | none => acc2)
  | .completionChunk delta =>
    (match delta with
      | some d =>
        if d ≠ "" then
          { acc with
            fullContent := acc.fullContent ++ d
            events := acc.events ++ [Event.content d] }
        else acc
      | none => acc)
  | .completionDone finalContent images searchResults =>
    let acc1 := match finalContent with
      | some f => if jsTrim f ≠ "" then { acc with fullContent := f } else acc
      | none => acc
    let acc2 := match images with
      | some im => { acc1 with images := im }
      | none => acc1
    (match searchResults with
      | some sr =>
        { acc2 with
          searchResults := sr
          events := acc2.events ++ [Event.sources sr] }
      | none => acc2)
  | .other => acc

/-- The batch research result (`performDeepResearch`), after the `?? `
defaults. -/
structure BatchResult where
  content : String := ""
  images : List ℕ := []
  searchResults : List SourceItem := []
deriving DecidableEq, Repr

/-- Which research backend the dynamic import resolved, and its outcome:
a streaming backend delivers a chunk prefix optionally followed by a
thrown error; a batch backend one result or a thrown error; `missing`
models neither export being a function. -/
inductive Backend where
  | streaming (chunks : List PChunk) (tailErr : Option JsErr)
  | batch (res : Except JsErr BatchResult)
  | missing
deriving Repr

/-- Run the research phase, threading the event list; an error carries
the events emitted so far. -/
def runBackend (b : Backend) (ev : List Event) :
    Except (JsErr × List Event) (String × List ℕ × List SourceItem × List Event) :=
  match b with
  | .streaming chunks tailErr =>
    let acc := chunks.foldl processChunk { events := ev }
    (match tailErr with
      | some e => .error (e, acc.events)
      | none => .ok (acc.fullContent, acc.images, acc.searchResults, acc.events))
  | .batch res =>
    let ev1 := ev ++ [Event.status "generating"]
    (match res with
      | .error e => .error (e, ev1)
      | .ok r =>
        let ev2 := if r.searchResults ≠ [] then ev1 ++ [Event.sources r.searchResults] else ev1
        let ev3 := if truthy r.content then ev2 ++ [Event.content r.content] else ev2
        .ok (r.content, r.images, r.searchResults, ev3))
  | .missing =>
    .error (.jsError "Perplexity module did not export expected functions", ev)

/-- The external collaborators of the streaming route. -/
structure StreamOracle where
  backend : Backend
  persistImages : List ℕ → Except JsErr (List ℕ)
  enrichChat : Except JsErr String
  jsonParse : String → Except JsErr JsValue
  enrichSchema : JsValue → Except JsErr Enrichment
  curate : Except JsErr (List CurateLinks.ExtraLink)

/-- The observable outcome of one run: the emitted NDJSON events, the
final contact document, and how many model-chat calls the enrichment
phase performed. -/
structure StreamOutcome where
  events : List Event
  contact : ContactDoc
  enrichChatCalls : ℕ
deriving Repr

/-- The route body after authorization and access checks: set status
`running`, run the research backend, persist images, save the raw
research, run the enrichment chat and parse it (no repair round-trip),
curate links, and commit the final patch with status `done`; the sole
`catch` emits a final `error` event and closes the stream without
touching the contact again. -/
def streamRun (o : StreamOracle) (c0 : ContactDoc) : StreamOutcome :=
  let ev1 := [Event.status "starting", Event.status "searching"]
  let c1 := { c0 with deepResearchStatus := some "running", deepResearchError := none }
  match runBackend o.backend ev1 with
  | .error (e, ev) =>
    { events := ev ++ [Event.error (e.messageOr "Deep research stream failed")],
      contact := c1, enrichChatCalls := 0 }
  | .ok (fullContent, images, searchResults, ev2) =>
    let ev3 := ev2 ++ [Event.status "saving"]
    match o.persistImages images with
    | .error e =>
      { events := ev3 ++ [Event.error (e.messageOr "Deep research stream failed")],
        contact := c1, enrichChatCalls := 0 }
    | .ok persisted =>
      let c2 := { c1 with
        deepResearchRaw := some fullContent,
        researchImages := some persisted,
        deepResearchSources := some searchResults,
        deepResearchPrompt := some "Deep research requested (streamed)." }
      let ev4 := ev3 ++ [Event.status "enriching"]
      match o.enrichChat with
      | .error e =>
        { events := ev4 ++ [Event.error (e.messageOr "Deep research stream failed")],
          contact := c2, enrichChatCalls := 1 }
      | .ok enrichmentContent =>
        match safeParseModelJson o.jsonParse enrichmentContent with
        | .error e =>
          { events := ev4 ++ [Event.error (e.messageOr "Deep research stream failed")],
            contact := c2, enrichChatCalls := 1 }
        | .ok enrichmentJson =>
          match o.enrichSchema enrichmentJson with
          | .error e =>
            { events := ev4 ++ [Event.error (e.messageOr "Deep research stream failed")],
              contact := c2, enrichChatCalls := 1 }
          | .ok enrichment =>
            match o.curate with
            | .error e =>
              { events := ev4 ++ [Event.error (e.messageOr "Deep research stream failed")],
                contact := c2, enrichChatCalls := 1 }
            | .ok curatedLinks =>
              let patch := enrichment.contactPatch
              let mergedFollowers := SocialFollowers.mergeSocialFollowers
                c0.socialFollowers (some enrichment.socialFollowers)
              let c3 := { c2 with
                fullName := applyPatchField c2.fullName patch.fullName
                firstName := applyPatchField c2.firstName patch.firstName
                lastName := applyPatchField c2.lastName patch.lastName
                jobTitle := applyPatchField c2.jobTitle patch.jobTitle
                companyName := applyPatchField c2.companyName patch.companyName
                email := applyPatchField c2.email patch.email
                phone := applyPatchField c2.phone patch.phone
                linkedInUrl := applyPatchField c2.linkedInUrl patch.linkedInUrl
                website := applyPatchField c2.website patch.website
                location := applyPatchField c2.location patch.location
                notes := notesValue patch.notes enrichment.summary
                tags := (match patchTags patch.tags with
                  | some t => some t
                  | none => c2.tags)
                deepResearchSummary := summaryOrNull enrichment.summary
                researchFields := some enrichment.researchFields
                socialFollowers := (match mergedFollowers with
                  | some m => some (m.map serializeFollower)
                  | none => c2.socialFollowers)
                extraLinks := some curatedLinks
                deepResearchStatus := some "done"
                deepResearchError := none }
              { events := ev4 ++ [Event.done], contact := c3, enrichChatCalls := 1 }

end StreamRoute

/-! ## Capture Lifecycle Controller / quick-capture background processor
(`processCaptureAsync` and its caller's `.catch`). -/

namespace CaptureRoute

open JsStr ModelJson Orchestrator StreamRoute

/-- The validated initial extraction (`contactExtractionSchema`); the
AI-provenance maps are not modeled (no claim touches them). -/
structure Extraction where
  contact : IngestRoute.ContactFields := {}
deriving DecidableEq, Repr

/-- The external collaborators of the capture processor.  There is no
link-curator collaborator: this code path never invokes the curator. -/
structure CaptureOracle where
  extractChat : Except JsErr String
  repairChat : Except JsErr String
  jsonParse : String → Except JsErr JsValue
  extractSchema : JsValue → Except JsErr Extraction
  research : Except JsErr BatchResult
  persistImages : List ℕ → Except JsErr (List ℕ)
  enrichChat : Except JsErr String
  enrichSchema : JsValue → Except JsErr Enrichment

/-- The observable outcome of one completed background run: the capture's
final lifecycle status and error, the created contact document (if
any), and the model-call accounting (`repairCalls` counts extraction
repair round-trips, `enrichChatCalls` counts enrichment-phase chats). -/
structure CaptureOutcome where
  captureStatus : String
  captureError : Option String := none
  contact : Option ContactDoc := none
  repairCalls : ℕ := 0
  enrichChatCalls : ℕ := 0
deriving Repr

/-- The contact document created from the initial extraction (the
`contactRef.set` after schema validation). -/
def contactFromExtraction (x : Extraction) (enableDeepResearch : Bool) :
    ContactDoc :=
  let c := x.contact
  { fullName := c.fullName
    firstName := c.firstName
    lastName := c.lastName
    jobTitle := c.jobTitle
    companyName := c.companyName
    email := c.email
    phone := c.phone
    linkedInUrl := c.linkedInUrl
    website := c.website
    location := c.location
    notes := c.notes
    tags := some (IngestRoute.jsSetDedup
      (((c.tags.getD []).map jsTrim).filter (fun t => t ≠ "")))
    deepResearchStatus := some (if enableDeepResearch then "queued" else "disabled") }

/-- The `catch (researchErr)` handler: record the error on the contact
and still mark the capture ready. -/
def researchCatch (c : ContactDoc) (e : JsErr) (repairCalls enrichCalls : ℕ) :
    CaptureOutcome :=
  { captureStatus := "ready"
    contact := some { c with
      deepResearchStatus := some "error"
      deepResearchError := some (e.messageOr "Deep research failed") }
    repairCalls := repairCalls
    enrichChatCalls := enrichCalls }

/-- The run from a successfully parsed extraction JSON onward. -/
def captureAfterParse (o : CaptureOracle) (enableDeepResearch : Bool)
    (j : JsValue) (repairCalls : ℕ) : CaptureOutcome :=
  match o.extractSchema j with
  | .error e =>
    { captureStatus := "error"
      captureError := some (e.messageOr "Processing failed")
      repairCalls := repairCalls }
  | .ok extraction =>
    let contact0 := contactFromExtraction extraction enableDeepResearch
    if enableDeepResearch = false then
      { captureStatus := "ready", contact := some contact0,
        repairCalls := repairCalls }
    else
      let c1 := { contact0 with
        deepResearchStatus := some "running"
        deepResearchPrompt := some "Deep research requested via Quick Capture." }
      match o.research with
      | .error e => researchCatch c1 e repairCalls 0
      | .ok r =>
        match o.persistImages r.images with
        | .error e => researchCatch c1 e repairCalls 0
        | .ok persisted =>
          let c2 := { c1 with
            deepResearchRaw := some r.content
            researchImages := some persisted }
          match o.enrichChat with
          | .error e => researchCatch c2 e repairCalls 1
          | .ok enrichmentContent =>
            match safeParseModelJson o.jsonParse enrichmentContent with
            | .error e => researchCatch c2 e repairCalls 1
            | .ok enrichmentJson =>
              match o.enrichSchema enrichmentJson with
              | .error e => researchCatch c2 e repairCalls 1
              | .ok enrichment =>
                let patch := enrichment.contactPatch
                let c3 := { c2 with
                  fullName := applyPatchField c2.fullName patch.fullName
                  firstName := applyPatchField c2.firstName patch.firstName
                  lastName := applyPatchField c2.lastName patch.lastName
                  jobTitle := applyPatchField c2.jobTitle patch.jobTitle
                  companyName := applyPatchField c2.companyName patch.companyName
                  email := applyPatchField c2.email patch.email
                  phone := applyPatchField c2.phone patch.phone
                  linkedInUrl := applyPatchField c2.linkedInUrl patch.linkedInUrl
                  website := applyPatchField c2.website patch.website
                  location := applyPatchField c2.location patch.location
                  notes := notesValue patch.notes enrichment.summary
                  tags := (match patchTags patch.tags with
                    | some t => some t
                    | none => c2.tags)
                  deepResearchSummary := summaryOrNull enrichment.summary
                  researchFields := some enrichment.researchFields
                  extraLinks := some (enrichmentExtraLinks enrichment.extraLinks)
                  deepResearchStatus := some "done"
                  deepResearchError := none }
                { captureStatus := "ready", contact := some c3,
                  repairCalls := repairCalls, enrichChatCalls := 1 }

/-- The completed background run, including the extraction chat, the
lenient parse with its single repair round-trip, and the caller's
`.catch` that marks the capture `error` on any escaped exception. -/
def captureRun (o : CaptureOracle) (enableDeepResearch : Bool) : CaptureOutcome :=
  match o.extractChat with
  | .error e =>
    { captureStatus := "error", captureError := some (e.messageOr "Processing failed") }
  | .ok content =>
    match safeParseModelJson o.jsonParse content with
    | .ok j => captureAfterParse o enableDeepResearch j 0
    | .error _ =>
      match o.repairChat with
      | .error e =>
        { captureStatus := "error"
          captureError := some (e.messageOr "Processing failed")
          repairCalls := 1 }
      | .ok repaired =>
        match safeParseModelJson o.jsonParse repaired with
        | .ok j => captureAfterParse o enableDeepResearch j 1
        | .error e =>
          { captureStatus := "error"
            captureError := some (e.messageOr "Processing failed")
            repairCalls := 1 }

end CaptureRoute

namespace StreamRoute

open Orchestrator ModelJson

/-- A run of the streaming route whose research backend throws. -/
def streamFailingOracle : StreamOracle :=
  { backend := .batch (.error (.jsError "Perplexity API down"))
    persistImages := fun im => .ok im
    enrichChat := .ok ""
    jsonParse := fun _ => .error .jsOther
    enrichSchema := fun _ => .error .jsOther
    curate := .ok [] }

/-- A run whose enrichment completion contains no JSON object. -/
def enrichmentNoJsonOracle : StreamOracle :=
  { backend := .batch (.ok { content := "Research findings." })
    persistImages := fun im => .ok im
    enrichChat := .ok "I could not find structured data."
    jsonParse := fun _ => .error .jsOther
    enrichSchema := fun _ => .error .jsOther
    curate := .ok [] }

end StreamRoute

open StreamRoute Orchestrator ModelJson in
/-- Claim C4: after the streaming orchestrator has set the contact's
research status to `running`, an exception makes it emit a final error
event — but the stored research status is left at `running`, not at a
terminal value: the `catch` block never writes the contact.  Evaluated at
a failing research backend. -/
theorem stream_error_leaves_running :
    (streamRun streamFailingOracle {}).contact.deepResearchStatus = some "running" ∧
    (streamRun streamFailingOracle {}).contact.deepResearchStatus ≠ some "done" ∧
    (streamRun streamFailingOracle {}).contact.deepResearchStatus ≠ some "error" ∧
    (streamRun streamFailingOracle {}).events.getLast? =
      some (Event.error "Perplexity API down") := by decide

open StreamRoute Orchestrator ModelJson in
/-- Claim C5 counterexample: an enrichment completion that fails the
first-brace/last-brace extraction fails the phase immediately — exactly
one enrichment model call was made, no repair round-trip was issued, and
the phase error is the parser's own. -/
theorem enrichment_repair_counterexample :
    (streamRun enrichmentNoJsonOracle {}).enrichChatCalls = 1 ∧
    (streamRun enrichmentNoJsonOracle {}).events.getLast? =
      some (Event.error "Model did not return JSON") ∧
    (streamRun enrichmentNoJsonOracle {}).contact.deepResearchStatus =
      some "running" := by decide

open StreamRoute Orchestrator ModelJson in
/-- Claim C5 amended: the enrichment phase of the streaming orchestrator
never issues a repair round-trip — it performs at most one model call,
and a completion that fails the first-brace/last-brace extraction (or
JSON decode) fails the phase at once with the parse error. -/
theorem enrichment_no_repair :
    (∀ (o : StreamOracle) (c0 : ContactDoc),
      (streamRun o c0).enrichChatCalls ≤ 1) ∧
    (∀ (o : StreamOracle) (c0 : ContactDoc) fullContent images searchResults
        ev2 persisted s e,
      runBackend o.backend [Event.status "starting", Event.status "searching"] =
        .ok (fullContent, images, searchResults, ev2) →
      o.persistImages images = .ok persisted →
      o.enrichChat = .ok s →
      safeParseModelJson o.jsonParse s = .error e →
      (streamRun o c0).enrichChatCalls = 1 ∧
      (streamRun o c0).events.getLast? =
        some (Event.error (e.messageOr "Deep research stream failed")) ∧
      (streamRun o c0).contact.deepResearchStatus = some "running") := by
  constructor
  · intro o c0
    unfold streamRun
    dsimp only
    cases hrb : runBackend o.backend [Event.status "starting", Event.status "searching"] with
    | error pe => obtain ⟨e, ev⟩ := pe; simp
    | ok quad =>
      obtain ⟨fullContent, images, searchResults, ev2⟩ := quad
      dsimp only
      cases hpi : o.persistImages images with
      | error e => simp
      | ok persisted =>
        dsimp only
        cases hec : o.enrichChat with
        | error e => simp
        | ok content =>
          dsimp only
          cases hsp : safeParseModelJson o.jsonParse content with
          | error e => simp
          | ok j =>
            dsimp only
            cases hes : o.enrichSchema j with
            | error e => simp
            | ok enr =>
              dsimp only
              cases hcu : o.curate with
              | error e => simp
              | ok links => simp
  · intro o c0 fullContent images searchResults ev2 persisted s e h1 h2 h3 h4
    unfold streamRun
    dsimp only
    rw [h1]
    dsimp only
    rw [h2]
    dsimp only
    rw [h3]
    dsimp only
    rw [h4]
    dsimp only
    refine ⟨rfl, ?_, rfl⟩
    exact List.getLast?_concat _

open StreamRoute Orchestrator ModelJson in
/-- Claim C5 amended witness at a concrete run. -/
theorem enrichment_no_repair_witness :
    (streamRun
      { backend := Backend.batch (Except.ok { content := "R" })
        persistImages := fun im => Except.ok im
        enrichChat := Except.ok "no json here"
        jsonParse := fun _ => Except.error JsErr.jsOther
        enrichSchema := fun _ => Except.error JsErr.jsOther
        curate := Except.ok [] } {}).enrichChatCalls = 1 ∧
    (streamRun
      { backend := Backend.batch (Except.ok { content := "R" })
        persistImages := fun im => Except.ok im
        enrichChat := Except.ok "no json here"
        jsonParse := fun _ => Except.error JsErr.jsOther
        enrichSchema := fun _ => Except.error JsErr.jsOther
        curate := Except.ok [] } {}).events.getLast? =
      some (Event.error ((JsErr.jsError "Model did not return JSON").messageOr
        "Deep research stream failed")) ∧
    (streamRun
      { backend := Backend.batch (Except.ok { content := "R" })
        persistImages := fun im => Except.ok im
        enrichChat := Except.ok "no json here"
        jsonParse := fun _ => Except.error JsErr.jsOther
        enrichSchema := fun _ => Except.error JsErr.jsOther
        curate := Except.ok [] } {}).contact.deepResearchStatus = some "running" :=
  enrichment_no_repair.2
    { backend := Backend.batch (Except.ok { content := "R" })
      persistImages := fun im => Except.ok im
      enrichChat := Except.ok "no json here"
      jsonParse := fun _ => Except.error JsErr.jsOther
      enrichSchema := fun _ => Except.error JsErr.jsOther
      curate := Except.ok [] } {}
    "R" [] []
    [Event.status "starting", Event.status "searching",
     Event.status "generating", Event.content "R"]
    [] "no json here" (JsErr.jsError "Model did not return JSON")
    rfl rfl rfl rfl

namespace CaptureRoute

open JsStr ModelJson Orchestrator StreamRoute

theorem captureAfterParse_terminal (o : CaptureOracle) (edr : Bool)
    (j : JsValue) (rc : ℕ) :
    (captureAfterParse o edr j rc).captureStatus = "ready" ∨
      (captureAfterParse o edr j rc).captureStatus = "error" := by
  unfold captureAfterParse
  dsimp only
  cases hes : o.extractSchema j with
  | error e => right; rfl
  | ok x =>
    dsimp only
    by_cases hedr : edr = false
    · rw [if_pos hedr]; left; rfl
    · rw [if_neg hedr]
      cases hr : o.research with
      | error e => left; rfl
      | ok r =>
        dsimp only
        cases hpi : o.persistImages r.images with
        | error e => left; rfl
        | ok p =>
          dsimp only
          cases hec : o.enrichChat with
          | error e => left; rfl
          | ok s =>
            dsimp only
            cases hsp : safeParseModelJson o.jsonParse s with
            | error e => left; rfl
            | ok ej =>
              dsimp only
              cases hen : o.enrichSchema ej with
              | error e => left; rfl
              | ok enr => left; rfl

end CaptureRoute

namespace CaptureRoute

/-- A capture run whose deep research throws an `Error` with an empty
message. -/
def captureEmptyMessageOracle : CaptureOracle :=
  { extractChat := .ok "\x7b\x7d"
    repairChat := .ok ""
    jsonParse := fun _ => .ok ⟨0⟩
    extractSchema := fun _ => .ok {}
    research := .error (.jsError "")
    persistImages := fun im => .ok im
    enrichChat := .ok ""
    enrichSchema := fun _ => .ok {} }

/-- A capture run whose enrichment returns one extra link; there is no
curator anywhere in this code path. -/
def captureLinksOracle : CaptureOracle :=
  { extractChat := .ok "\x7b\x7d"
    repairChat := .ok ""
    jsonParse := fun _ => .ok ⟨0⟩
    extractSchema := fun _ => .ok {}
    research := .ok { content := "Research findings." }
    persistImages := fun im => .ok im
    enrichChat := .ok "\x7b\x7d"
    enrichSchema := fun _ =>
      .ok { extraLinks := [{ label := "Docs", url := "https://docs.example.com" }] } }

end CaptureRoute

open CaptureRoute Orchestrator ModelJson in
/-- Claim C6 counterexample: when the research phase throws an `Error`
whose message is empty, the contact's research status is set to `error`
and the capture still reaches `ready` — but the recorded error message is
the empty string, not a non-empty one. -/
theorem capture_error_message_counterexample :
    (captureRun captureEmptyMessageOracle true).captureStatus = "ready" ∧
    ((captureRun captureEmptyMessageOracle true).contact.map
      (fun c => c.deepResearchStatus)) = some (some "error") ∧
    ((captureRun captureEmptyMessageOracle true).contact.map
      (fun c => c.deepResearchError)) = some (some "") := by decide

open CaptureRoute StreamRoute Orchestrator ModelJson in
/-- Claim C6 amended: every completed capture run ends in a terminal
lifecycle status (`ready` or `error`, never `researching`); when the
research call or the enrichment phase of a deep-research capture fails,
the contact's research status becomes `error` and its error message is
the exception's own message when the exception is an `Error` (possibly
empty) and the non-empty default `Deep research failed` otherwise, while
the capture is still marked `ready`. -/
theorem capture_research_failure_terminal :
    (∀ (o : CaptureOracle) (edr : Bool),
      (captureRun o edr).captureStatus = "ready" ∨
        (captureRun o edr).captureStatus = "error") ∧
    (∀ (o : CaptureOracle) (j : JsValue) (rc : ℕ) (x : Extraction) (e : JsErr),
      o.extractSchema j = .ok x → o.research = .error e →
      (captureAfterParse o true j rc).captureStatus = "ready" ∧
      ∃ c, (captureAfterParse o true j rc).contact = some c ∧
        c.deepResearchStatus = some "error" ∧
        c.deepResearchError = some (e.messageOr "Deep research failed")) ∧
    (∀ (o : CaptureOracle) (j : JsValue) (rc : ℕ) (x : Extraction)
        (r : BatchResult) (p : List ℕ) (s : String) (e : JsErr),
      o.extractSchema j = .ok x → o.research = .ok r →
      o.persistImages r.images = .ok p → o.enrichChat = .ok s →
      safeParseModelJson o.jsonParse s = .error e →
      (captureAfterParse o true j rc).captureStatus = "ready" ∧
      ∃ c, (captureAfterParse o true j rc).contact = some c ∧
        c.deepResearchStatus = some "error" ∧
        c.deepResearchError = some (e.messageOr "Deep research failed")) := by
  refine ⟨?_, ?_, ?_⟩
  · intro o edr
    unfold captureRun
    cases hx : o.extractChat with
    | error e => right; rfl
    | ok content =>
      dsimp only
      cases hp1 : safeParseModelJson o.jsonParse content with
      | ok j => exact captureAfterParse_terminal o edr j 0
      | error e1 =>
        dsimp only
        cases hrc : o.repairChat with
        | error e => right; rfl
        | ok repaired =>
          dsimp only
          cases hp2 : safeParseModelJson o.jsonParse repaired with
          | ok j => exact captureAfterParse_terminal o edr j 1
          | error e2 => right; rfl
  · intro o j rc x e hx hr
    unfold captureAfterParse
    rw [hx]
    dsimp only
    simp only [Bool.true_eq_false, if_false]
    rw [hr]
    exact ⟨rfl, _, rfl, rfl, rfl⟩
  · intro o j rc x r p s e hx hr hp hc hsp
    unfold captureAfterParse
    rw [hx]
    dsimp only
    simp only [Bool.true_eq_false, if_false]
    rw [hr]
    dsimp only
    rw [hp]
    dsimp only
    rw [hc]
    dsimp only
    rw [hsp]
    exact ⟨rfl, _, rfl, rfl, rfl⟩

open CaptureRoute Orchestrator ModelJson in
/-- Claim C6 amended witness at a concrete run (a research backend that
throws a non-Error value, yielding the non-empty default message). -/
theorem capture_research_failure_terminal_witness :
    ((captureRun
      { extractChat := Except.ok "\x7b\x7d"
        repairChat := Except.ok ""
        jsonParse := fun _ => Except.ok ⟨0⟩
        extractSchema := fun _ => Except.ok {}
        research := Except.error JsErr.jsOther
        persistImages := fun im => Except.ok im
        enrichChat := Except.ok ""
        enrichSchema := fun _ => Except.ok {} } true).captureStatus = "ready" ∨
      (captureRun
      { extractChat := Except.ok "\x7b\x7d"
        repairChat := Except.ok ""
        jsonParse := fun _ => Except.ok ⟨0⟩
        extractSchema := fun _ => Except.ok {}
        research := Except.error JsErr.jsOther
        persistImages := fun im => Except.ok im
        enrichChat := Except.ok ""
        enrichSchema := fun _ => Except.ok {} } true).captureStatus = "error") ∧
    ((captureAfterParse
      { extractChat := Except.ok "\x7b\x7d"
        repairChat := Except.ok ""
        jsonParse := fun _ => Except.ok ⟨0⟩
        extractSchema := fun _ => Except.ok {}
        research := Except.error JsErr.jsOther
        persistImages := fun im => Except.ok im
        enrichChat := Except.ok ""
        enrichSchema := fun _ => Except.ok {} } true ⟨0⟩ 0).captureStatus = "ready" ∧
      ∃ c, (captureAfterParse
        { extractChat := Except.ok "\x7b\x7d"
          repairChat := Except.ok ""
          jsonParse := fun _ => Except.ok ⟨0⟩
          extractSchema := fun _ => Except.ok {}
          research := Except.error JsErr.jsOther
          persistImages := fun im => Except.ok im
          enrichChat := Except.ok ""
          enrichSchema := fun _ => Except.ok {} } true ⟨0⟩ 0).contact = some c ∧
        c.deepResearchStatus = some "error" ∧
        c.deepResearchError =
          some (JsErr.messageOr "Deep research failed" JsErr.jsOther)) :=
  ⟨capture_research_failure_terminal.1
    { extractChat := Except.ok "\x7b\x7d"
      repairChat := Except.ok ""
      jsonParse := fun _ => Except.ok ⟨0⟩
      extractSchema := fun _ => Except.ok {}
      research := Except.error JsErr.jsOther
      persistImages := fun im => Except.ok im
      enrichChat := Except.ok ""
      enrichSchema := fun _ => Except.ok {} } true,
   capture_research_failure_terminal.2.1
    { extractChat := Except.ok "\x7b\x7d"
      repairChat := Except.ok ""
      jsonParse := fun _ => Except.ok ⟨0⟩
      extractSchema := fun _ => Except.ok {}
      research := Except.error JsErr.jsOther
      persistImages := fun im => Except.ok im
      enrichChat := Except.ok ""
      enrichSchema := fun _ => Except.ok {} } ⟨0⟩ 0 {} JsErr.jsOther rfl rfl⟩

open CaptureRoute Orchestrator ModelJson CurateLinks in
/-- Claim C10 counterexample: the quick-capture research path writes the
contact's extra links directly from the enrichment payload — its oracle
has no link-curator collaborator at all — so a research pass can commit
non-empty extra links that never passed through the curator. -/
theorem capture_links_no_curator_counterexample :
    ((captureRun captureLinksOracle true).contact.map (fun c => c.extraLinks)) =
      some (some [{ label := "Docs", url := "https://docs.example.com" }]) ∧
    (captureRun captureLinksOracle true).captureStatus = "ready" := by decide

open CaptureRoute StreamRoute Orchestrator ModelJson CurateLinks in
/-- Claim C10 amended: after a successful research pass, the streaming
deep-research route replaces the contact's extra links with exactly the
Link Curator's output; but the quick-capture research path writes them
directly as the (normalized) enrichment links, without invoking the
curator. -/
theorem extra_links_writer_paths :
    (∀ (o : StreamOracle) (c0 : ContactDoc) fullContent images searchResults
        ev2 persisted s j enr links,
      runBackend o.backend [Event.status "starting", Event.status "searching"] =
        .ok (fullContent, images, searchResults, ev2) →
      o.persistImages images = .ok persisted →
      o.enrichChat = .ok s →
      safeParseModelJson o.jsonParse s = .ok j →
      o.enrichSchema j = .ok enr →
      o.curate = .ok links →
      (streamRun o c0).contact.extraLinks = some links ∧
      (streamRun o c0).contact.deepResearchStatus = some "done") ∧
    (∀ (o : CaptureOracle) (j : JsValue) (rc : ℕ) (x : Extraction)
        (r : BatchResult) (p : List ℕ) (s : String) (ej : JsValue)
        (enr : Enrichment),
      o.extractSchema j = .ok x → o.research = .ok r →
      o.persistImages r.images = .ok p → o.enrichChat = .ok s →
      safeParseModelJson o.jsonParse s = .ok ej → o.enrichSchema ej = .ok enr →
      ∃ c, (captureAfterParse o true j rc).contact = some c ∧
        c.extraLinks = some (enrichmentExtraLinks enr.extraLinks)) := by
  constructor
  · intro o c0 fullContent images searchResults ev2 persisted s j enr links
      h1 h2 h3 h4 h5 h6
    unfold streamRun
    dsimp only
    rw [h1]
    dsimp only
    rw [h2]
    dsimp only
    rw [h3]
    dsimp only
    rw [h4]
    dsimp only
    rw [h5]
    dsimp only
    rw [h6]
    exact ⟨rfl, rfl⟩
  · intro o j rc x r p s ej enr hx hr hp hc hsp hes
    unfold captureAfterParse
    rw [hx]
    dsimp only
    simp only [Bool.true_eq_false, if_false]
    rw [hr]
    dsimp only
    rw [hp]
    dsimp only
    rw [hc]
    dsimp only
    rw [hsp]
    dsimp only
    rw [hes]
    exact ⟨_, rfl, rfl⟩

open CaptureRoute StreamRoute Orchestrator ModelJson CurateLinks in
/-- Claim C10 amended witness at concrete runs of both paths. -/
theorem extra_links_writer_paths_witness :
    ((streamRun
      { backend := Backend.batch (Except.ok { content := "R" })
        persistImages := fun im => Except.ok im
        enrichChat := Except.ok "\x7b\x7d"
        jsonParse := fun _ => Except.ok ⟨0⟩
        enrichSchema := fun _ => Except.ok {}
        curate := Except.ok [{ label := "Site", url := "https://site.example" }] }
      {}).contact.extraLinks =
        some [{ label := "Site", url := "https://site.example" }] ∧
      (streamRun
      { backend := Backend.batch (Except.ok { content := "R" })
        persistImages := fun im => Except.ok im
        enrichChat := Except.ok "\x7b\x7d"
        jsonParse := fun _ => Except.ok ⟨0⟩
        enrichSchema := fun _ => Except.ok {}
        curate := Except.ok [{ label := "Site", url := "https://site.example" }] }
      {}).contact.deepResearchStatus = some "done") ∧
    (∃ c, (captureAfterParse captureLinksOracle true ⟨0⟩ 0).contact = some c ∧
      c.extraLinks = some (enrichmentExtraLinks
        [{ label := "Docs", url := "https://docs.example.com" }])) :=
  ⟨extra_links_writer_paths.1
    { backend := Backend.batch (Except.ok { content := "R" })
      persistImages := fun im => Except.ok im
      enrichChat := Except.ok "\x7b\x7d"
      jsonParse := fun _ => Except.ok ⟨0⟩
      enrichSchema := fun _ => Except.ok {}
      curate := Except.ok [{ label := "Site", url := "https://site.example" }] }
    {} "R" [] []
    [Event.status "starting", Event.status "searching",
     Event.status "generating", Event.content "R"]
    [] "\x7b\x7d" ⟨0⟩ {}
    [{ label := "Site", url := "https://site.example" }]
    rfl rfl rfl rfl rfl rfl,
   extra_links_writer_paths.2 captureLinksOracle ⟨0⟩ 0 {}
    { content := "Research findings." } [] "\x7b\x7d" ⟨0⟩
    { extraLinks := [{ label := "Docs", url := "https://docs.example.com" }] }
    rfl rfl rfl rfl rfl rfl⟩
